import Mathlib

/-!
Verification of the session synchronizer (`SwitchXAuthProvider` in
`src/react/auth.tsx`) of the SwitchX apps SDK.

The provider's React state, the two persisted localStorage entries
(`switchx_auth`, `switchx_user`), the host-bridge object
(`window.SwitchX.WebApp`) and the profile fetches are embedded as an
explicit transition system.  Each event handler of the source becomes a
function on the system state; the two `useEffect` blocks that react to
state changes (the profile-fetch effect at lines 395-412 and the
user-clearing effect at lines 417-421) are re-run after every handler,
mirroring React's commit/effect cycle with `Object.is` dependency
comparison.
-/

namespace SwitchX

/-- User profile record, from the `UserInfo` interface of the SDK shared types. -/
structure UserInfo where
  userId : String
  name : String
  imageUrl : String
  username : String
  bio : String
  bot : Bool
deriving DecidableEq

/-- Parsed content of the `switchx_auth` localStorage entry.  `malformed` stands
for content on which `JSON.parse` throws (caught by the try/catch of `initAuth`);
`record` carries the three optional fields the code destructures.  -/
inductive StoredAuth
  | malformed
  | record (token userId communityId : Option String)
deriving DecidableEq

/-- Parsed content of the `switchx_user` localStorage entry: `{data, timestamp}`. -/
inductive StoredUser
  | malformed
  | record (data : Option UserInfo) (timestamp : Int)
deriving DecidableEq

/-- The two persisted cache entries; `none` means the key is absent. -/
structure Cache where
  auth : Option StoredAuth
  user : Option StoredUser
deriving DecidableEq

/-- Non-null result of `window.SwitchX.WebApp.getAuthToken()`. -/
structure BridgeAuth where
  token : String
  userId : String
deriving DecidableEq

/-- Non-null result of `window.SwitchX.WebApp.getCommunityInfo?.()`. -/
structure BridgeCommunity where
  id : String
  name : String
deriving DecidableEq

/-- What one query of the host bridge observes: `getAuthToken()` and the optional
`getCommunityInfo` (absent method and null result are both `none`). -/
structure BridgeData where
  authData : Option BridgeAuth
  communityInfo : Option BridgeCommunity
deriving DecidableEq

/-- JS truthiness of a string: the empty string is falsy. -/
def struthy (s : String) : Bool := s ≠ ""

/-- JS truthiness of a possibly-absent string. -/
def truthy : Option String → Bool
  | none => false
  | some s => struthy s

/-- The React state of `SwitchXAuthProvider` (lines 148-154). -/
structure AuthState where
  token : Option String
  userId : Option String
  user : Option UserInfo
  isAuthenticated : Bool
  loading : Bool
  userLoading : Bool
  communityId : Option String
deriving DecidableEq

/-- The `useState` initial values (lines 148-154). -/
def initialState : AuthState :=
  { token := none, userId := none, user := none, isAuthenticated := false,
    loading := true, userLoading := false, communityId := none }

/-- A profile fetch whose `client.getUser` promise is still pending.  `viaEffect`
records whether it was started by the provider effect (and hence received the
effect's `AbortSignal`); an explicit `refreshUserInfo()` call passes no signal. -/
structure Fetch where
  token : String
  userId : String
  aborted : Bool
  viaEffect : Bool
deriving DecidableEq

/-- The whole system: provider state, persisted cache, pending fetches, the
sequence of `notifyParentAuth` signals emitted so far (in order), and how many
times `WebApp.clearData()` has been invoked. -/
structure Sys where
  st : AuthState
  cache : Cache
  fetches : List Fetch
  emitted : List Bool
  bridgeCleared : Nat
deriving DecidableEq

/-- System at mount, before the mount effect runs, over a given cache content. -/
def initSys (c : Cache) : Sys :=
  { st := initialState, cache := c, fetches := [], emitted := [], bridgeCleared := 0 }

/-- `CACHE_DURATION = 24 * 60 * 60 * 1000` (line 291). -/
def CACHE_DURATION : Int := 24 * 60 * 60 * 1000

/-- The bridge-query block that appears verbatim in `initAuth` (lines 318-342),
`handleSwitchBridgeAuth` (lines 356-380) and `refreshAuthFromParent`
(lines 435-457): if `getAuthToken()` yields a truthy token and userId, adopt
them, adopt a truthy community id, and re-persist `{token, userId, communityId}`
to the `switchx_auth` entry.  Returns whether a pair was adopted. -/
def applyBridgeAuth (b : BridgeData) (st : AuthState) (cache : Cache) :
    AuthState × Cache × Bool :=
  match b.authData with
  | some a =>
    if struthy a.token && struthy a.userId then
      let cid := b.communityInfo.map BridgeCommunity.id
      let st1 := { st with token := some a.token, userId := some a.userId,
                           isAuthenticated := true }
      let st2 := if truthy cid then { st1 with communityId := cid } else st1
      (st2,
       { cache with auth := some (StoredAuth.record (some a.token) (some a.userId) cid) },
       true)
    else (st, cache, false)
  | none => (st, cache, false)

/-- The localStorage block of `initAuth` (lines 270-316): hydrate token, userId
and communityId from the `switchx_auth` entry when its pair is truthy, then
adopt the cached profile when present, unexpired and truthy (setting
`shouldNotifyParent`, the returned flag); an expired profile entry is removed;
malformed entries are caught and ignored. -/
def hydrateFromStorage (now : Int) (st0 : AuthState) (cache0 : Cache) :
    AuthState × Cache × Bool :=
  match cache0.auth with
  | some (StoredAuth.record t u c) =>
    if truthy t && truthy u then
      let sa := { st0 with token := t, userId := u, isAuthenticated := true }
      let sb := if truthy c then { sa with communityId := c } else sa
      match cache0.user with
      | some (StoredUser.record data ts) =>
        let isExpired : Bool := decide (now - ts > CACHE_DURATION)
        if !isExpired && data.isSome then
          ({ sb with user := data }, cache0, true)
        else
          (sb, if isExpired then { cache0 with user := none } else cache0, false)
      | some StoredUser.malformed => (sb, cache0, false)
      | none => (sb, cache0, false)
    else (st0, cache0, false)
  | some StoredAuth.malformed => (st0, cache0, false)
  | none => (st0, cache0, false)

/-- Embeds `initAuth` (lines 264-350): the localStorage block, then the bridge
query block (which may overwrite), then `setLoading(false)`.  When the returned
`shouldNotifyParent` flag is true the handler ends with `notifyParentAuth(true)`. -/
def initAuth (bridge : Option BridgeData) (now : Int) (st0 : AuthState)
    (cache0 : Cache) : AuthState × Cache × Bool :=
  let hydrated := hydrateFromStorage now st0 cache0
  let bridged :=
    match bridge with
    | some b =>
      let r := applyBridgeAuth b hydrated.1 hydrated.2.1
      (r.1, r.2.1)
    | none => (hydrated.1, hydrated.2.1)
  ({ bridged.1 with loading := false }, bridged.2, hydrated.2.2)

/-- Embeds `handleSwitchBridgeAuth` (lines 352-381), the `switchAuthReady`
listener: bridge query, plus `setLoading(false)` when a pair was adopted. -/
def handleSwitchBridgeAuth (bridge : Option BridgeData) (st : AuthState)
    (cache : Cache) : AuthState × Cache :=
  match bridge with
  | some b =>
    let r := applyBridgeAuth b st cache
    if r.2.2 then ({ r.1 with loading := false }, r.2.1) else (r.1, r.2.1)
  | none => (st, cache)

/-- Embeds `refreshAuthFromParent` (lines 426-466): without a bridge it returns
false and touches nothing; with a bridge it runs the query block (the transient
`setLoading(true)` is undone by the `finally` before the batch commits) and
returns whether a pair was adopted. -/
def refreshAuthFromParent (bridge : Option BridgeData) (st : AuthState)
    (cache : Cache) : AuthState × Cache × Bool :=
  match bridge with
  | none => (st, cache, false)
  | some b =>
    let r := applyBridgeAuth b st cache
    ({ r.1 with loading := false }, r.2.1, r.2.2)

/-- Embeds `clearAuth` (lines 471-490): null out token/userId/user, set
`isAuthenticated` false, emit the unauthenticated signal, remove both cache
entries, and call `WebApp.clearData()` if the bridge is present. -/
def clearAuth (bridgePresent : Bool) (sys : Sys) : Sys :=
  { sys with
    st := { sys.st with token := none, userId := none, user := none,
                        isAuthenticated := false },
    emitted := sys.emitted ++ [false],
    cache := { auth := none, user := none },
    bridgeCleared := sys.bridgeCleared + (if bridgePresent then 1 else 0) }

/-- Embeds the synchronous prefix of `fetchUserInfo` (lines 198-229) when called
as `refreshUserInfo()` with no AbortSignal: guard on truthy token/userId, then
`setUserLoading(true)` and start the request.  Its completion is `resolveFetch`
with `viaEffect = false`. -/
def refreshUserInfo (sys : Sys) : Sys :=
  match sys.st.token, sys.st.userId with
  | some t, some u =>
    if struthy t && struthy u then
      { sys with st := { sys.st with userLoading := true },
                 fetches := sys.fetches ++
                   [{ token := t, userId := u, aborted := false, viaEffect := false }] }
    else sys
  | _, _ => sys

/-- Embeds the resumption of `fetchUserInfo` (lines 198-229) once
`client.getUser` settles, together with the `.then` continuation of the
provider effect (lines 402-407).  `outcome` is `some info` on fulfilment and
`none` on rejection.  An aborted call returns false and performs no state
update (its `finally` also skips `setUserLoading(false)`); a live success
stores the user, re-persists the profile cache with a fresh timestamp, and —
for the effect-started call — notifies the parent.  Returns the boolean the
promise resolves with. -/
def resolveFetch (i : Nat) (outcome : Option UserInfo) (now : Int) (sys : Sys) :
    Sys × Bool :=
  match sys.fetches.get? i with
  | none => (sys, false)
  | some f =>
    let rest := sys.fetches.eraseIdx i
    if f.aborted then ({ sys with fetches := rest }, false)
    else
      match outcome with
      | some info =>
        ({ sys with
           st := { sys.st with user := some info, userLoading := false },
           cache := { sys.cache with user := some (StoredUser.record (some info) now) },
           fetches := rest,
           emitted := sys.emitted ++ (if f.viaEffect then [true] else []) }, true)
      | none =>
        ({ sys with st := { sys.st with userLoading := false }, fetches := rest },
         false)

/-- The dependency tuple of the profile-fetch effect (line 412), restricted to
the state fields (the two memoized callbacks change exactly with token/userId). -/
def deps (st : AuthState) : Option String × Option String × Option UserInfo × Bool :=
  (st.token, st.userId, st.user, st.isAuthenticated)

/-- Cleanup of the profile-fetch effect (lines 409-411): aborting the controller
of the fetch the last effect body started.  Only effect-started fetches hold the
signal; re-aborting an already aborted fetch is a no-op. -/
def abortEffectFetches (fs : List Fetch) : List Fetch :=
  fs.map fun f => if f.viaEffect then { f with aborted := true } else f

/-- Body of the profile-fetch effect (lines 395-408) combined with the
synchronous prefix of `fetchUserInfo` it invokes: when authenticated with a
truthy pair and no user yet, `setUserLoading(true)` and start a signalled fetch. -/
def startEffectFetch (sys : Sys) : Sys :=
  match sys.st.token, sys.st.userId with
  | some t, some u =>
    if sys.st.isAuthenticated && struthy t && struthy u && sys.st.user.isNone then
      { sys with st := { sys.st with userLoading := true },
                 fetches := sys.fetches ++
                   [{ token := t, userId := u, aborted := false, viaEffect := true }] }
    else sys
  | _, _ => sys

/-- One run of the profile-fetch effect against the previously committed state:
if the dependencies are unchanged React skips it, otherwise cleanup then body. -/
def fetchEffect (prev : AuthState) (sys : Sys) : Sys :=
  if deps sys.st = deps prev then sys
  else startEffectFetch { sys with fetches := abortEffectFetches sys.fetches }

/-- The user-clearing effect (lines 417-421). -/
def clearUserEffect (st : AuthState) : AuthState :=
  if !st.isAuthenticated && st.user.isSome then { st with user := none } else st

/-- The React flush after an event handler: the fetch effect and the
user-clearing effect run against the previous committed state; a state change
made by the user-clearing effect triggers one more fetch-effect pass. -/
def runEffects (prev : AuthState) (sys : Sys) : Sys :=
  let sys1 := fetchEffect prev sys
  let sys2 := { sys1 with st := clearUserEffect sys1.st }
  fetchEffect sys1.st sys2

/-- The asynchronous inputs the mounted provider can receive, in any order:
a `switchAuthReady` event (carrying what the bridge then answers), an explicit
`refreshAuthFromParent()` call, an explicit `refreshUserInfo()` call, a
`clearAuth()` call, and the settlement of the i-th pending profile fetch. -/
inductive Event
  | bridgeReady (bridge : Option BridgeData)
  | refreshAuth (bridge : Option BridgeData)
  | refreshUser
  | clear (bridgePresent : Bool)
  | fetchResolve (i : Nat) (outcome : Option UserInfo) (now : Int)
deriving DecidableEq

/-- Process one event: run its handler, then flush the reactive effects. -/
def step (sys : Sys) (e : Event) : Sys :=
  match e with
  | .bridgeReady bd =>
    let r := handleSwitchBridgeAuth bd sys.st sys.cache
    runEffects sys.st { sys with st := r.1, cache := r.2 }
  | .refreshAuth bd =>
    let r := refreshAuthFromParent bd sys.st sys.cache
    runEffects sys.st { sys with st := r.1, cache := r.2.1 }
  | .refreshUser =>
    runEffects sys.st (refreshUserInfo sys)
  | .clear bp =>
    runEffects sys.st (clearAuth bp sys)
  | .fetchResolve i outcome now =>
    runEffects sys.st (resolveFetch i outcome now sys).1

/-- The mount flush: `initAuth` runs once (after the listener is registered),
its `notifyParentAuth(true)` is recorded when `shouldNotifyParent` held, and
the effects then react to the committed state. -/
def stepInit (bridge : Option BridgeData) (now : Int) (sys : Sys) : Sys :=
  let r := initAuth bridge now sys.st sys.cache
  runEffects sys.st
    { sys with st := r.1, cache := r.2.1,
               emitted := sys.emitted ++ (if r.2.2 then [true] else []) }

/-- A complete execution: mount over a cache content and an initial bridge
snapshot, then any sequence of events. -/
def run (c : Cache) (bridge0 : Option BridgeData) (now0 : Int)
    (evs : List Event) : Sys :=
  evs.foldl step (stepInit bridge0 now0 (initSys c))

/-- Validity of one bridge observation, as the guard of the query block decides it. -/
def bridgeValid : Option BridgeData → Option BridgeAuth
  | none => none
  | some b =>
    match b.authData with
    | none => none
    | some a => if struthy a.token && struthy a.userId then some a else none

/-- The (token, userId) pair the localStorage hydration step yields from a cache
content: the stored pair when the entry parses and both components are truthy,
otherwise nothing. -/
def cachePair (c : Cache) : Option String × Option String :=
  match c.auth with
  | some (StoredAuth.record t u _) =>
    if truthy t && truthy u then (t, u) else (none, none)
  | _ => (none, none)

/-- No fetch in the list is both effect-started and unaborted. -/
def DeadEff (fs : List Fetch) : Prop :=
  ∀ f ∈ fs, f.viaEffect = true → f.aborted = false → False

/-- Every live effect-started fetch sees no user and an authenticated state. -/
def InvF (sys : Sys) : Prop :=
  ∀ f ∈ sys.fetches, f.viaEffect = true → f.aborted = false →
    sys.st.user = none ∧ sys.st.isAuthenticated = true

/-- The spec invariant: `isAuthenticated` is exactly the presence of both
`token` and `userId`. -/
def InvA (sys : Sys) : Prop :=
  sys.st.isAuthenticated = (sys.st.token.isSome && sys.st.userId.isSome)

def Inv (sys : Sys) : Prop := InvA sys ∧ InvF sys

/-- Fold the claim's "most recent non-null bridge result" over a sequence of
bridge observations. -/
def latestBridge (acc : Option BridgeAuth) (bd : Option BridgeData) :
    Option BridgeAuth :=
  match bridgeValid bd with
  | some a => some a
  | none => acc

/-- What claim C1 asserts of a state: if some bridge query returned a valid
pair, the snapshot holds exactly that pair and it has been re-persisted to the
auth cache entry; otherwise the snapshot holds the pair hydrated from the
persisted cache and the auth cache entry is untouched. -/
def C1Inv (c : Cache) (acc : Option BridgeAuth) (sys : Sys) : Prop :=
  match acc with
  | some a => sys.st.token = some a.token ∧ sys.st.userId = some a.userId ∧
      ∃ cid, sys.cache.auth =
        some (StoredAuth.record (some a.token) (some a.userId) cid)
  | none => (sys.st.token, sys.st.userId) = cachePair c ∧ sys.cache.auth = c.auth

def sampleUserU : UserInfo := ⟨"U", "n", "i", "un", "b", false⟩

def sampleUserU2 : UserInfo := ⟨"U", "n2", "i", "un", "b", false⟩

def cacheTU : Cache := ⟨some (StoredAuth.record (some "t") (some "u") none), none⟩

def cacheMismatch : Cache :=
  ⟨some (StoredAuth.record (some "t") (some "V") none),
   some (StoredUser.record (some sampleUserU) 0)⟩

def cacheFull : Cache :=
  ⟨some (StoredAuth.record (some "tA") (some "U") none),
   some (StoredUser.record (some sampleUserU) 0)⟩

def bridgeBV : Option BridgeData := some ⟨some ⟨"tB", "V"⟩, none⟩

def cacheCom : Cache :=
  ⟨some (StoredAuth.record (some "t") (some "u") (some "c")),
   some (StoredUser.record (some sampleUserU) 0)⟩

theorem fetchEffect_parts (prev : AuthState) (sys : Sys) :
    (fetchEffect prev sys).st.token = sys.st.token ∧
    (fetchEffect prev sys).st.userId = sys.st.userId ∧
    (fetchEffect prev sys).st.user = sys.st.user ∧
    (fetchEffect prev sys).st.isAuthenticated = sys.st.isAuthenticated ∧
    (fetchEffect prev sys).st.communityId = sys.st.communityId ∧
    (fetchEffect prev sys).st.loading = sys.st.loading ∧
    (fetchEffect prev sys).cache = sys.cache ∧
    (fetchEffect prev sys).emitted = sys.emitted ∧
    (fetchEffect prev sys).bridgeCleared = sys.bridgeCleared := by
  unfold fetchEffect startEffectFetch
  repeat' split <;> simp_all

theorem clearUserEffect_parts (st : AuthState) :
    (clearUserEffect st).token = st.token ∧
    (clearUserEffect st).userId = st.userId ∧
    (clearUserEffect st).isAuthenticated = st.isAuthenticated ∧
    (clearUserEffect st).communityId = st.communityId ∧
    (clearUserEffect st).loading = st.loading ∧
    (clearUserEffect st).userLoading = st.userLoading := by
  unfold clearUserEffect
  repeat' split <;> simp_all

theorem runEffects_parts (prev : AuthState) (sys : Sys) :
    (runEffects prev sys).st.token = sys.st.token ∧
    (runEffects prev sys).st.userId = sys.st.userId ∧
    (runEffects prev sys).st.isAuthenticated = sys.st.isAuthenticated ∧
    (runEffects prev sys).st.communityId = sys.st.communityId ∧
    (runEffects prev sys).st.loading = sys.st.loading ∧
    (runEffects prev sys).cache = sys.cache ∧
    (runEffects prev sys).emitted = sys.emitted ∧
    (runEffects prev sys).bridgeCleared = sys.bridgeCleared := by
  unfold runEffects
  have h1 := fetchEffect_parts prev sys
  have h2 := clearUserEffect_parts (fetchEffect prev sys).st
  have h3 := fetchEffect_parts (fetchEffect prev sys).st
    { fetchEffect prev sys with st := clearUserEffect (fetchEffect prev sys).st }
  exact ⟨by simp_all, by simp_all, by simp_all, by simp_all,
         by simp_all, by simp_all, by simp_all, by simp_all⟩

theorem runEffects_inv3 (prev : AuthState) (sys : Sys)
    (h : (runEffects prev sys).st.isAuthenticated = false) :
    (runEffects prev sys).st.user = none := by
  unfold runEffects at *
  have h2 := clearUserEffect_parts (fetchEffect prev sys).st
  have h3 := fetchEffect_parts (fetchEffect prev sys).st
    { fetchEffect prev sys with st := clearUserEffect (fetchEffect prev sys).st }
  -- the final state user equals the clearUserEffect output user
  have huser : (clearUserEffect (fetchEffect prev sys).st).isAuthenticated = false →
      (clearUserEffect (fetchEffect prev sys).st).user = none := by
    unfold clearUserEffect
    split <;> simp_all
  simp_all

theorem fetchEffect_of_deps_eq {prev : AuthState} {sys : Sys}
    (h : deps sys.st = deps prev) : fetchEffect prev sys = sys := by
  unfold fetchEffect
  rw [if_pos h]

theorem clearUserEffect_id_of {st : AuthState}
    (h : st.isAuthenticated = false → st.user = none) :
    clearUserEffect st = st := by
  unfold clearUserEffect
  split <;> simp_all

theorem runEffects_id {prev : AuthState} {sys : Sys}
    (hdeps : deps sys.st = deps prev)
    (hcu : clearUserEffect sys.st = sys.st) :
    runEffects prev sys = sys := by
  unfold runEffects
  rw [fetchEffect_of_deps_eq hdeps]
  show fetchEffect sys.st { sys with st := clearUserEffect sys.st } = sys
  have h2 : ({ sys with st := clearUserEffect sys.st } : Sys) = sys := by rw [hcu]
  rw [h2, fetchEffect_of_deps_eq rfl]

theorem step_inv3 (sys : Sys) (e : Event) :
    (step sys e).st.isAuthenticated = false → (step sys e).st.user = none := by
  cases e <;> exact fun h => runEffects_inv3 _ _ h

theorem stepInit_inv3 (b : Option BridgeData) (n : Int) (sys : Sys) :
    (stepInit b n sys).st.isAuthenticated = false →
    (stepInit b n sys).st.user = none := by
  exact fun h => runEffects_inv3 _ _ h

theorem foldl_inv3 (evs : List Event) (sys : Sys)
    (h : sys.st.isAuthenticated = false → sys.st.user = none) :
    (evs.foldl step sys).st.isAuthenticated = false →
    (evs.foldl step sys).st.user = none := by
  induction evs generalizing sys with
  | nil => exact h
  | cons e t ih => exact ih (step sys e) (step_inv3 sys e)

theorem run_inv3 (c : Cache) (b : Option BridgeData) (n : Int) (evs : List Event) :
    (run c b n evs).st.isAuthenticated = false → (run c b n evs).st.user = none := by
  exact foldl_inv3 evs _ (stepInit_inv3 b n (initSys c))

theorem run_snoc (c : Cache) (b : Option BridgeData) (n : Int) (evs : List Event)
    (e : Event) : run c b n (evs ++ [e]) = step (run c b n evs) e := by
  unfold run
  rw [List.foldl_append]
  rfl

theorem resolveFetch_failure {sys : Sys} {i : Nat} {now : Int} {f : Fetch}
    (hf : sys.fetches.get? i = some f) (ha : f.aborted = false) :
    resolveFetch i none now sys =
      ({ sys with st := { sys.st with userLoading := false },
                  fetches := sys.fetches.eraseIdx i }, false) := by
  unfold resolveFetch
  rw [hf]
  simp [ha]

/-- C8: when a profile fetch fails without having been cancelled, the promise
resolves false and the snapshot keeps everything except userLoading (reset to
false) and the removed pending fetch: profile, token, userId, isAuthenticated,
communityId, the caches and the emitted signals are all unchanged, and no
snapshot-level error field exists at all. -/
theorem c8_fetch_failure (c : Cache) (b : Option BridgeData) (n : Int) (evs : List Event)
    (i : Nat) (now : Int) (f : Fetch)
    (hf : (run c b n evs).fetches.get? i = some f)
    (ha : f.aborted = false) :
    (resolveFetch i none now (run c b n evs)).2 = false ∧
    step (run c b n evs) (.fetchResolve i none now) =
      { run c b n evs with
        st := { (run c b n evs).st with userLoading := false },
        fetches := (run c b n evs).fetches.eraseIdx i } := by
  constructor
  · rw [resolveFetch_failure hf ha]
  · show runEffects (run c b n evs).st (resolveFetch i none now (run c b n evs)).1 = _
    rw [resolveFetch_failure hf ha]
    exact runEffects_id rfl (clearUserEffect_id_of (run_inv3 c b n evs))

theorem runEffects_start {prev : AuthState} {sys : Sys} {t u : String}
    (htok : sys.st.token = some t) (huid : sys.st.userId = some u)
    (hauth : sys.st.isAuthenticated = true) (huser : sys.st.user = none)
    (ht : struthy t = true) (hu : struthy u = true)
    (hne : ¬ deps sys.st = deps prev) :
    runEffects prev sys =
      { sys with st := { sys.st with userLoading := true },
                 fetches := abortEffectFetches sys.fetches ++
                   [⟨t, u, false, true⟩] } := by
  have h1 : fetchEffect prev sys =
      { sys with st := { sys.st with userLoading := true },
                 fetches := abortEffectFetches sys.fetches ++ [⟨t, u, false, true⟩] } := by
    unfold fetchEffect startEffectFetch
    rw [if_neg hne]
    dsimp only
    rw [htok, huid]
    simp [hauth, ht, hu, huser]
  have hcu : clearUserEffect { sys.st with userLoading := true } =
      { sys.st with userLoading := true } := by
    unfold clearUserEffect
    simp [hauth]
  unfold runEffects
  dsimp only
  rw [h1, hcu]
  exact fetchEffect_of_deps_eq rfl

theorem applyBridgeAuth_spec (b : BridgeData) (st : AuthState) (cache : Cache) :
    (bridgeValid (some b) = none ∧ applyBridgeAuth b st cache = (st, cache, false)) ∨
    (∃ a, bridgeValid (some b) = some a ∧
      struthy a.token = true ∧ struthy a.userId = true ∧
      (applyBridgeAuth b st cache).1.token = some a.token ∧
      (applyBridgeAuth b st cache).1.userId = some a.userId ∧
      (applyBridgeAuth b st cache).1.isAuthenticated = true ∧
      (applyBridgeAuth b st cache).1.user = st.user ∧
      (applyBridgeAuth b st cache).1.loading = st.loading ∧
      (applyBridgeAuth b st cache).1.userLoading = st.userLoading ∧
      (applyBridgeAuth b st cache).2.1.user = cache.user ∧
      (applyBridgeAuth b st cache).2.1.auth =
        some (StoredAuth.record (some a.token) (some a.userId)
          (b.communityInfo.map BridgeCommunity.id)) ∧
      (applyBridgeAuth b st cache).2.2 = true) := by
  rcases hba : b.authData with _ | a
  · left
    constructor
    · simp [bridgeValid, hba]
    · unfold applyBridgeAuth
      rw [hba]
  · cases hsa : struthy a.token && struthy a.userId
    · left
      constructor
      · simp [bridgeValid, hba, hsa]
      · unfold applyBridgeAuth
        rw [hba]
        dsimp only
        rw [if_neg (by simp [hsa])]
    · right
      refine ⟨a, by simp [bridgeValid, hba, hsa], (Bool.and_eq_true_iff.mp hsa).1,
        (Bool.and_eq_true_iff.mp hsa).2, ?_⟩
      unfold applyBridgeAuth
      rw [hba]
      dsimp only
      rw [if_pos (by simp [hsa])]
      dsimp only
      refine ⟨?_, ?_, ?_, ?_, ?_, ?_, ?_, ?_, rfl⟩ <;> first | rfl | (split <;> rfl)

theorem initAuth_parts (bridge : Option BridgeData) (now : Int) (st0 : AuthState)
    (cache0 : Cache) :
    (bridgeValid bridge = none ∧
      initAuth bridge now st0 cache0 =
        ({ (hydrateFromStorage now st0 cache0).1 with loading := false },
         (hydrateFromStorage now st0 cache0).2.1,
         (hydrateFromStorage now st0 cache0).2.2)) ∨
    (∃ a, bridgeValid bridge = some a ∧
      struthy a.token = true ∧ struthy a.userId = true ∧
      (initAuth bridge now st0 cache0).1.token = some a.token ∧
      (initAuth bridge now st0 cache0).1.userId = some a.userId ∧
      (initAuth bridge now st0 cache0).1.isAuthenticated = true ∧
      (initAuth bridge now st0 cache0).1.user =
        (hydrateFromStorage now st0 cache0).1.user ∧
      (initAuth bridge now st0 cache0).1.userLoading =
        (hydrateFromStorage now st0 cache0).1.userLoading ∧
      (initAuth bridge now st0 cache0).2.1.user =
        (hydrateFromStorage now st0 cache0).2.1.user ∧
      (∃ cid, (initAuth bridge now st0 cache0).2.1.auth =
        some (StoredAuth.record (some a.token) (some a.userId) cid)) ∧
      (initAuth bridge now st0 cache0).2.2 =
        (hydrateFromStorage now st0 cache0).2.2) := by
  rcases bridge with _ | b
  · left
    exact ⟨rfl, rfl⟩
  · rcases applyBridgeAuth_spec b (hydrateFromStorage now st0 cache0).1
      (hydrateFromStorage now st0 cache0).2.1 with
      ⟨hv, heq⟩ | ⟨a, hv, hat, hau, htok, huid, hauth, husr, hld, hul, hcu, hca, hr2⟩
    · left
      refine ⟨hv, ?_⟩
      unfold initAuth
      dsimp only
      rw [heq]
    · right
      refine ⟨a, hv, hat, hau, ?_, ?_, ?_, ?_, ?_, ?_,
        ⟨b.communityInfo.map BridgeCommunity.id, ?_⟩, rfl⟩ <;>
        (unfold initAuth; dsimp only)
      · exact htok
      · exact huid
      · exact hauth
      · exact husr
      · exact hul
      · exact hcu
      · exact hca

theorem hydrateFromStorage_expired (now T : Int) (st0 : AuthState) (t u : String)
    (cid : Option String) (data : UserInfo)
    (ht : struthy t = true) (hu : struthy u = true)
    (hexp : now - T > CACHE_DURATION) :
    (hydrateFromStorage now st0
      ⟨some (StoredAuth.record (some t) (some u) cid),
       some (StoredUser.record (some data) T)⟩).1.token = some t ∧
    (hydrateFromStorage now st0
      ⟨some (StoredAuth.record (some t) (some u) cid),
       some (StoredUser.record (some data) T)⟩).1.userId = some u ∧
    (hydrateFromStorage now st0
      ⟨some (StoredAuth.record (some t) (some u) cid),
       some (StoredUser.record (some data) T)⟩).1.isAuthenticated = true ∧
    (hydrateFromStorage now st0
      ⟨some (StoredAuth.record (some t) (some u) cid),
       some (StoredUser.record (some data) T)⟩).1.user = st0.user ∧
    (hydrateFromStorage now st0
      ⟨some (StoredAuth.record (some t) (some u) cid),
       some (StoredUser.record (some data) T)⟩).1.userLoading = st0.userLoading ∧
    (hydrateFromStorage now st0
      ⟨some (StoredAuth.record (some t) (some u) cid),
       some (StoredUser.record (some data) T)⟩).2.1 =
      ⟨some (StoredAuth.record (some t) (some u) cid), none⟩ ∧
    (hydrateFromStorage now st0
      ⟨some (StoredAuth.record (some t) (some u) cid),
       some (StoredUser.record (some data) T)⟩).2.2 = false := by
  unfold hydrateFromStorage
  dsimp only
  simp only [truthy, ht, hu, Bool.and_self, if_true, decide_eq_true hexp,
    Bool.not_true, Bool.false_and, Bool.false_eq_true, if_false]
  refine ⟨?_, ?_, ?_, ?_, ?_, ?_, ?_⟩ <;> first | trivial | (split <;> rfl)

theorem hydrateFromStorage_fresh (now T : Int) (st0 : AuthState) (t u : String)
    (cid : Option String) (data : UserInfo)
    (ht : struthy t = true) (hu : struthy u = true)
    (hexp : ¬ now - T > CACHE_DURATION) :
    (hydrateFromStorage now st0
      ⟨some (StoredAuth.record (some t) (some u) cid),
       some (StoredUser.record (some data) T)⟩).1.token = some t ∧
    (hydrateFromStorage now st0
      ⟨some (StoredAuth.record (some t) (some u) cid),
       some (StoredUser.record (some data) T)⟩).1.userId = some u ∧
    (hydrateFromStorage now st0
      ⟨some (StoredAuth.record (some t) (some u) cid),
       some (StoredUser.record (some data) T)⟩).1.isAuthenticated = true ∧
    (hydrateFromStorage now st0
      ⟨some (StoredAuth.record (some t) (some u) cid),
       some (StoredUser.record (some data) T)⟩).1.user = some data ∧
    (hydrateFromStorage now st0
      ⟨some (StoredAuth.record (some t) (some u) cid),
       some (StoredUser.record (some data) T)⟩).2.1 =
      ⟨some (StoredAuth.record (some t) (some u) cid),
       some (StoredUser.record (some data) T)⟩ ∧
    (hydrateFromStorage now st0
      ⟨some (StoredAuth.record (some t) (some u) cid),
       some (StoredUser.record (some data) T)⟩).2.2 = true := by
  unfold hydrateFromStorage
  dsimp only
  simp only [truthy, ht, hu, Bool.and_self, if_true, decide_eq_false hexp,
    Bool.not_false, Bool.true_and, Option.isSome_some, if_true]
  refine ⟨?_, ?_, ?_, ?_, ?_, ?_⟩ <;> first | trivial | (split <;> rfl)

theorem deps_ne_of_token {st st' : AuthState} (h : st.token ≠ st'.token) :
    ¬ deps st = deps st' := fun he => h (congrArg Prod.fst he)

/-- C6: a persisted profile cached at timestamp T is not adopted at current
time T + 86400001: resolution leaves the snapshot profile absent, removes the
switchx_user cache entry, and starts exactly one (live) profile fetch. -/
theorem c6_expired_profile_cache (bridge : Option BridgeData) (t u : String) (cid : Option String)
    (data : UserInfo) (T : Int)
    (ht : struthy t = true) (hu : struthy u = true) :
    (stepInit bridge (T + 86400001)
      (initSys ⟨some (StoredAuth.record (some t) (some u) cid),
                some (StoredUser.record (some data) T)⟩)).st.user = none ∧
    (stepInit bridge (T + 86400001)
      (initSys ⟨some (StoredAuth.record (some t) (some u) cid),
                some (StoredUser.record (some data) T)⟩)).cache.user = none ∧
    (stepInit bridge (T + 86400001)
      (initSys ⟨some (StoredAuth.record (some t) (some u) cid),
                some (StoredUser.record (some data) T)⟩)).fetches.length = 1 ∧
    ((stepInit bridge (T + 86400001)
      (initSys ⟨some (StoredAuth.record (some t) (some u) cid),
                some (StoredUser.record (some data) T)⟩)).fetches.get? 0).map
        Fetch.aborted = some false := by
  have hexp : (T + 86400001 : Int) - T > CACHE_DURATION := by
    unfold CACHE_DURATION
    omega
  obtain ⟨H1, H2, H3, H4, H5, H6, H7⟩ :=
    hydrateFromStorage_expired (T + 86400001) T initialState t u cid data ht hu hexp
  rcases initAuth_parts bridge (T + 86400001) initialState
      ⟨some (StoredAuth.record (some t) (some u) cid),
       some (StoredUser.record (some data) T)⟩ with
    ⟨hv, heq⟩ | ⟨a, hv, hat, hau, htok, huid, hauth, husr, hul, hcu, ⟨cid2, hca⟩, hnot⟩
  · unfold stepInit initSys
    dsimp only
    rw [heq]
    dsimp only
    rw [H6, H7]
    rw [runEffects_start (t := t) (u := u) H1 H2 H3 H4 ht hu
      (deps_ne_of_token (by rw [show ({ (hydrateFromStorage (T + 86400001) initialState
        ⟨some (StoredAuth.record (some t) (some u) cid),
         some (StoredUser.record (some data) T)⟩).1 with loading := false} : AuthState).token
          = some t from H1]; exact Option.some_ne_none t))]
    refine ⟨H4, rfl, rfl, rfl⟩
  · unfold stepInit initSys
    dsimp only
    rw [runEffects_start (t := a.token) (u := a.userId) htok huid hauth
      (husr.trans (H4.trans rfl)) hat hau
      (deps_ne_of_token (by rw [htok]; exact Option.some_ne_none _))]
    exact ⟨husr.trans (H4.trans rfl), by rw [hcu, H6], rfl, rfl⟩

theorem truthy_isSome {t : Option String} (h : truthy t = true) : t.isSome = true := by
  cases t <;> simp_all [truthy]

theorem runEffects_user_of_auth {prev : AuthState} {sys : Sys}
    (hauth : sys.st.isAuthenticated = true) :
    (runEffects prev sys).st.user = sys.st.user := by
  have h1u := (fetchEffect_parts prev sys).2.2.1
  have h1a := (fetchEffect_parts prev sys).2.2.2.1
  have hcu : clearUserEffect (fetchEffect prev sys).st = (fetchEffect prev sys).st :=
    clearUserEffect_id_of (by intro h; rw [h1a, hauth] at h; exact nomatch h)
  unfold runEffects
  dsimp only
  rw [hcu]
  have h2 : ({ fetchEffect prev sys with st := (fetchEffect prev sys).st } : Sys) =
      fetchEffect prev sys := rfl
  rw [h2, fetchEffect_of_deps_eq rfl]
  exact h1u

theorem hydrateFromStorage_notify (now : Int) (st0 : AuthState) (c : Cache)
    (h : (hydrateFromStorage now st0 c).2.2 = true) :
    (hydrateFromStorage now st0 c).1.isAuthenticated = true ∧
    (hydrateFromStorage now st0 c).1.user.isSome = true := by
  unfold hydrateFromStorage at *
  repeat' split at h
  all_goals try simp_all
  all_goals (split at h <;> simp_all)

theorem resolveFetch_oob {sys : Sys} {i : Nat} {outcome : Option UserInfo} {now : Int}
    (h : sys.fetches.get? i = none) :
    resolveFetch i outcome now sys = (sys, false) := by
  unfold resolveFetch
  rw [h]

theorem resolveFetch_aborted {sys : Sys} {i : Nat} {outcome : Option UserInfo}
    {now : Int} {f : Fetch} (hf : sys.fetches.get? i = some f)
    (ha : f.aborted = true) :
    resolveFetch i outcome now sys =
      ({ sys with fetches := sys.fetches.eraseIdx i }, false) := by
  unfold resolveFetch
  rw [hf]
  simp [ha]

theorem resolveFetch_success {sys : Sys} {i : Nat} {info : UserInfo} {now : Int}
    {f : Fetch} (hf : sys.fetches.get? i = some f) (ha : f.aborted = false) :
    resolveFetch i (some info) now sys =
      ({ sys with
          st := { sys.st with user := some info, userLoading := false },
          cache := { sys.cache with user := some (StoredUser.record (some info) now) },
          fetches := sys.fetches.eraseIdx i,
          emitted := sys.emitted ++ (if f.viaEffect then [true] else []) }, true) := by
  unfold resolveFetch
  rw [hf]
  simp [ha]

/-- Field-wise extensionality for the provider state. -/
theorem authState_ext {a b : AuthState} (h1 : a.token = b.token)
    (h2 : a.userId = b.userId) (h3 : a.user = b.user)
    (h4 : a.isAuthenticated = b.isAuthenticated) (h5 : a.loading = b.loading)
    (h6 : a.userLoading = b.userLoading) (h7 : a.communityId = b.communityId) :
    a = b := by
  cases a
  cases b
  simp_all

theorem abortEffectFetches_dead (fs : List Fetch) :
    DeadEff (abortEffectFetches fs) := by
  intro f hf hv ha
  unfold abortEffectFetches at hf
  rcases List.mem_map.mp hf with ⟨g, hg, rfl⟩
  by_cases hgv : g.viaEffect = true <;> simp_all

theorem startEffectFetch_invF (sys : Sys) (h : DeadEff sys.fetches) :
    InvF (startEffectFetch sys) := by
  intro f hf hv ha
  unfold startEffectFetch at hf ⊢
  rcases htok : sys.st.token with _ | t
  · try simp only [htok] at hf ⊢
    try dsimp only at hf
    exact (h f hf hv ha).elim
  · rcases huid : sys.st.userId with _ | u
    · try simp only [htok, huid] at hf ⊢
      try dsimp only at hf
      exact (h f hf hv ha).elim
    · try simp only [htok, huid] at hf ⊢
      try dsimp only at hf ⊢
      split at hf
      · rename_i hc
        dsimp only at hf
        rcases List.mem_append.mp hf with hmem | hmem
        · exact (h f hmem hv ha).elim
        · simp only [Bool.and_eq_true, Option.isNone_iff_eq_none] at hc
          split
          · exact ⟨hc.2, hc.1.1.1⟩
          · exact ⟨hc.2, hc.1.1.1⟩
      · exact (h f hf hv ha).elim

theorem fetchEffect_invF (prev : AuthState) (sys : Sys)
    (h : deps sys.st = deps prev → InvF sys) : InvF (fetchEffect prev sys) := by
  unfold fetchEffect
  split
  · exact h (by assumption)
  · exact startEffectFetch_invF _ (abortEffectFetches_dead sys.fetches)

theorem runEffects_invF (prev : AuthState) (sys : Sys)
    (h : deps sys.st = deps prev → InvF sys) : InvF (runEffects prev sys) := by
  unfold runEffects
  dsimp only
  apply fetchEffect_invF
  intro hdeq
  have hueq : (clearUserEffect (fetchEffect prev sys).st).user =
      (fetchEffect prev sys).st.user := congrArg (fun p => p.2.2.1) hdeq
  have hcu : clearUserEffect (fetchEffect prev sys).st = (fetchEffect prev sys).st := by
    unfold clearUserEffect at hueq ⊢
    split at hueq
    · rename_i hcond
      simp only [Bool.and_eq_true] at hcond
      exact absurd hcond.2 (by rw [← hueq]; simp)
    · rename_i hcond
      rw [if_neg hcond]
  have h2 : ({ fetchEffect prev sys with
      st := clearUserEffect (fetchEffect prev sys).st } : Sys) = fetchEffect prev sys := by
    rw [hcu]
  rw [h2]
  exact fetchEffect_invF prev sys h

theorem mem_of_mem_eraseIdx {l : List Fetch} {i : Nat} {f : Fetch}
    (h : f ∈ l.eraseIdx i) : f ∈ l :=
  (List.eraseIdx_sublist l i).mem h

theorem handleSwitchBridgeAuth_parts (bd : Option BridgeData) (st : AuthState)
    (cache : Cache) :
    (bridgeValid bd = none ∧ handleSwitchBridgeAuth bd st cache = (st, cache)) ∨
    (∃ a, bridgeValid bd = some a ∧
      (handleSwitchBridgeAuth bd st cache).1.token = some a.token ∧
      (handleSwitchBridgeAuth bd st cache).1.userId = some a.userId ∧
      (handleSwitchBridgeAuth bd st cache).1.isAuthenticated = true ∧
      (handleSwitchBridgeAuth bd st cache).1.user = st.user ∧
      (handleSwitchBridgeAuth bd st cache).1.userLoading = st.userLoading ∧
      (handleSwitchBridgeAuth bd st cache).2.user = cache.user ∧
      ∃ cid, (handleSwitchBridgeAuth bd st cache).2.auth =
        some (StoredAuth.record (some a.token) (some a.userId) cid)) := by
  rcases bd with _ | b
  · left
    exact ⟨rfl, rfl⟩
  · rcases applyBridgeAuth_spec b st cache with
      ⟨hv, heq⟩ | ⟨a, hv, hat, hau, htok, huid, hauth, husr, hld, hul, hcu, hca, hr2⟩
    · left
      refine ⟨hv, ?_⟩
      unfold handleSwitchBridgeAuth
      dsimp only
      rw [heq]
      simp
    · right
      refine ⟨a, hv, ?_, ?_, ?_, ?_, ?_, ?_,
        b.communityInfo.map BridgeCommunity.id, ?_⟩ <;>
        (unfold handleSwitchBridgeAuth; dsimp only; rw [hr2, if_pos rfl])
      · exact htok
      · exact huid
      · exact hauth
      · exact husr
      · exact hul
      · exact hcu
      · exact hca

theorem refreshAuthFromParent_parts (bd : Option BridgeData) (st : AuthState)
    (cache : Cache) :
    ((refreshAuthFromParent bd st cache).1.token = st.token ∧
     (refreshAuthFromParent bd st cache).1.userId = st.userId ∧
     (refreshAuthFromParent bd st cache).1.isAuthenticated = st.isAuthenticated ∧
     (refreshAuthFromParent bd st cache).1.user = st.user ∧
     (refreshAuthFromParent bd st cache).1.userLoading = st.userLoading ∧
     (refreshAuthFromParent bd st cache).2.1 = cache) ∨
    (∃ a, bridgeValid bd = some a ∧
      (refreshAuthFromParent bd st cache).1.token = some a.token ∧
      (refreshAuthFromParent bd st cache).1.userId = some a.userId ∧
      (refreshAuthFromParent bd st cache).1.isAuthenticated = true ∧
      (refreshAuthFromParent bd st cache).1.user = st.user ∧
      (refreshAuthFromParent bd st cache).1.userLoading = st.userLoading ∧
      (refreshAuthFromParent bd st cache).2.1.user = cache.user ∧
      ∃ cid, (refreshAuthFromParent bd st cache).2.1.auth =
        some (StoredAuth.record (some a.token) (some a.userId) cid)) := by
  rcases bd with _ | b
  · left
    exact ⟨rfl, rfl, rfl, rfl, rfl, rfl⟩
  · rcases applyBridgeAuth_spec b st cache with
      ⟨hv, heq⟩ | ⟨a, hv, hat, hau, htok, huid, hauth, husr, hld, hul, hcu, hca, hr2⟩
    · left
      unfold refreshAuthFromParent
      dsimp only
      rw [heq]
      exact ⟨rfl, rfl, rfl, rfl, rfl, rfl⟩
    · right
      refine ⟨a, hv, ?_, ?_, ?_, ?_, ?_, ?_,
        b.communityInfo.map BridgeCommunity.id, ?_⟩ <;>
        (unfold refreshAuthFromParent; dsimp only)
      · exact htok
      · exact huid
      · exact hauth
      · exact husr
      · exact hul
      · exact hcu
      · exact hca

theorem refreshUserInfo_parts (sys : Sys) :
    refreshUserInfo sys = sys ∨
    (∃ t u, sys.st.token = some t ∧ sys.st.userId = some u ∧
      struthy t = true ∧ struthy u = true ∧
      refreshUserInfo sys =
        { sys with st := { sys.st with userLoading := true },
                   fetches := sys.fetches ++
                     [{ token := t, userId := u, aborted := false, viaEffect := false }] }) := by
  unfold refreshUserInfo
  rcases htok : sys.st.token with _ | t
  · left
    rfl
  · rcases huid : sys.st.userId with _ | u
    · left
      rfl
    · cases hst : struthy t && struthy u
      · left
        dsimp only
        rw [if_neg (by simp [hst])]
      · rcases Bool.and_eq_true_iff.mp hst with ⟨h1, h2⟩
        right
        refine ⟨t, u, rfl, rfl, h1, h2, ?_⟩
        dsimp only
        rw [if_pos (by simp [h1, h2])]

theorem deps_eq_iff {a b : AuthState} : deps a = deps b ↔
    (a.token = b.token ∧ a.userId = b.userId ∧ a.user = b.user ∧
     a.isAuthenticated = b.isAuthenticated) := by
  unfold deps
  simp [Prod.ext_iff]

theorem runEffects_invA {prev : AuthState} {sys : Sys} (h : InvA sys) :
    InvA (runEffects prev sys) := by
  obtain ⟨p1, p2, p3, _⟩ := runEffects_parts prev sys
  unfold InvA at *
  rw [p1, p2, p3]
  exact h

theorem inv_step (sys : Sys) (e : Event) (h : Inv sys) : Inv (step sys e) := by
  obtain ⟨hA, hF⟩ := h
  cases e with
  | bridgeReady bd =>
    show Inv (runEffects sys.st
      { sys with st := (handleSwitchBridgeAuth bd sys.st sys.cache).1,
                 cache := (handleSwitchBridgeAuth bd sys.st sys.cache).2 })
    rcases handleSwitchBridgeAuth_parts bd sys.st sys.cache with
      ⟨_, heq⟩ | ⟨a, hv, htok, huid, hauth, husr, hul, hcu, cid, hca⟩
    · rw [heq]
      exact ⟨runEffects_invA hA, runEffects_invF _ _ (fun _ => hF)⟩
    · constructor
      · apply runEffects_invA
        unfold InvA
        dsimp only
        rw [htok, huid, hauth]
        rfl
      · apply runEffects_invF
        intro _ f hmem hv hab
        exact ⟨husr.trans (hF f hmem hv hab).1, hauth⟩
  | refreshAuth bd =>
    show Inv (runEffects sys.st
      { sys with st := (refreshAuthFromParent bd sys.st sys.cache).1,
                 cache := (refreshAuthFromParent bd sys.st sys.cache).2.1 })
    rcases refreshAuthFromParent_parts bd sys.st sys.cache with
      ⟨p1, p2, p3, p4, p5, p6⟩ | ⟨a, hv, htok, huid, hauth, husr, hul, hcu, cid, hca⟩
    · constructor
      · apply runEffects_invA
        unfold InvA
        dsimp only
        rw [p1, p2, p3]
        exact hA
      · apply runEffects_invF
        intro _ f hmem hv hab
        exact ⟨p4.trans (hF f hmem hv hab).1, p3.trans (hF f hmem hv hab).2⟩
    · constructor
      · apply runEffects_invA
        unfold InvA
        dsimp only
        rw [htok, huid, hauth]
        rfl
      · apply runEffects_invF
        intro _ f hmem hv hab
        exact ⟨husr.trans (hF f hmem hv hab).1, hauth⟩
  | refreshUser =>
    show Inv (runEffects sys.st (refreshUserInfo sys))
    rcases refreshUserInfo_parts sys with heq | ⟨t, u, htok, huid, h1, h2, heq⟩
    · rw [heq]
      exact ⟨runEffects_invA hA, runEffects_invF _ _ (fun _ => hF)⟩
    · rw [heq]
      constructor
      · exact runEffects_invA hA
      · apply runEffects_invF
        intro _ f hmem hv hab
        rcases List.mem_append.mp hmem with hm | hm
        · exact ⟨(hF f hm hv hab).1, (hF f hm hv hab).2⟩
        · have hfe : f = ⟨t, u, false, false⟩ := by simpa using hm
          rw [hfe] at hv
          exact nomatch hv
  | clear bp =>
    show Inv (runEffects sys.st (clearAuth bp sys))
    constructor
    · apply runEffects_invA
      unfold InvA
      rfl
    · apply runEffects_invF
      intro hdeq f hmem hv hab
      have hpre := hF f hmem hv hab
      have hfa := (deps_eq_iff.mp hdeq).2.2.2
      rw [hpre.2] at hfa
      exact nomatch hfa
  | fetchResolve i outcome now =>
    show Inv (runEffects sys.st (resolveFetch i outcome now sys).1)
    rcases hget : sys.fetches.get? i with _ | f
    · rw [resolveFetch_oob hget]
      exact ⟨runEffects_invA hA, runEffects_invF _ _ (fun _ => hF)⟩
    · cases hab2 : f.aborted
      · cases outcome with
        | none =>
          rw [resolveFetch_failure hget hab2]
          constructor
          · exact runEffects_invA hA
          · apply runEffects_invF
            intro _ g hmem hv hab
            have hm := mem_of_mem_eraseIdx hmem
            exact ⟨(hF g hm hv hab).1, (hF g hm hv hab).2⟩
        | some info =>
          rw [resolveFetch_success hget hab2]
          constructor
          · exact runEffects_invA hA
          · apply runEffects_invF
            intro hdeq g hmem hv hab
            have huc := (deps_eq_iff.mp hdeq).2.2.1
            have hm := mem_of_mem_eraseIdx hmem
            have hpre := hF g hm hv hab
            rw [hpre.1] at huc
            exact nomatch huc
      · rw [resolveFetch_aborted hget hab2]
        constructor
        · exact runEffects_invA hA
        · apply runEffects_invF
          intro _ g hmem hv hab
          have hm := mem_of_mem_eraseIdx hmem
          exact ⟨(hF g hm hv hab).1, (hF g hm hv hab).2⟩

theorem hydrateFromStorage_invA (now : Int) (st0 : AuthState) (c : Cache)
    (h : st0.isAuthenticated = (st0.token.isSome && st0.userId.isSome)) :
    (hydrateFromStorage now st0 c).1.isAuthenticated =
      ((hydrateFromStorage now st0 c).1.token.isSome &&
       (hydrateFromStorage now st0 c).1.userId.isSome) := by
  unfold hydrateFromStorage
  repeat' split <;> (try simp_all [truthy_isSome])

theorem inv_init (c : Cache) (b : Option BridgeData) (n : Int) :
    Inv (stepInit b n (initSys c)) := by
  show Inv (runEffects (initSys c).st
    { initSys c with
      st := (initAuth b n (initSys c).st (initSys c).cache).1,
      cache := (initAuth b n (initSys c).st (initSys c).cache).2.1,
      emitted := (initSys c).emitted ++
        (if (initAuth b n (initSys c).st (initSys c).cache).2.2 then [true] else []) })
  constructor
  · apply runEffects_invA
    unfold InvA
    dsimp only
    rcases initAuth_parts b n (initSys c).st (initSys c).cache with
      ⟨hv, heq⟩ | ⟨a, hv, hat, hau, htok, huid, hauth, husr, hul, hcu, ⟨cid, hca⟩, hnot⟩
    · rw [heq]
      exact hydrateFromStorage_invA n _ c rfl
    · rw [htok, huid, hauth]
      rfl
  · apply runEffects_invF
    intro _ f hmem hv hab
    exact nomatch hmem

theorem foldl_inv (evs : List Event) (sys : Sys) (h : Inv sys) :
    Inv (evs.foldl step sys) := by
  induction evs generalizing sys with
  | nil => exact h
  | cons e t ih => exact ih (step sys e) (inv_step sys e h)

theorem inv_run (c : Cache) (b : Option BridgeData) (n : Int) (evs : List Event) :
    Inv (run c b n evs) :=
  foldl_inv evs _ (inv_init c b n)



example (l : List Fetch) (n : Nat) (a : Fetch) (h : l.get? n = some a) : a ∈ l :=
  List.get?_mem h

theorem stepInit_emit (c : Cache) (b : Option BridgeData) (n : Int) :
    (stepInit b n (initSys c)).emitted = [] ∨
    ((stepInit b n (initSys c)).emitted = [true] ∧
     (stepInit b n (initSys c)).st.isAuthenticated = true ∧
     (stepInit b n (initSys c)).st.user.isSome = true) := by
  have hflag : (initAuth b n (initSys c).st (initSys c).cache).2.2 =
      (hydrateFromStorage n (initSys c).st (initSys c).cache).2.2 := by
    rcases initAuth_parts b n (initSys c).st (initSys c).cache with
      ⟨_, heq⟩ | ⟨a, _, _, _, _, _, _, _, _, _, _, hnot⟩
    · rw [heq]
    · exact hnot
  have hstep : stepInit b n (initSys c) = runEffects (initSys c).st
    { initSys c with
      st := (initAuth b n (initSys c).st (initSys c).cache).1,
      cache := (initAuth b n (initSys c).st (initSys c).cache).2.1,
      emitted := (initSys c).emitted ++
        (if (initAuth b n (initSys c).st (initSys c).cache).2.2 then [true]
         else []) } := rfl
  rw [hstep]
  cases hnot : (initAuth b n (initSys c).st (initSys c).cache).2.2
  · left
    rw [(runEffects_parts _ _).2.2.2.2.2.2.1]
    simp [hnot, initSys]
  · right
    have hhyd := hydrateFromStorage_notify n (initSys c).st (initSys c).cache
      (hflag.symm.trans hnot)
    have hauth1 : (initAuth b n (initSys c).st (initSys c).cache).1.isAuthenticated
        = true := by
      rcases initAuth_parts b n (initSys c).st (initSys c).cache with
        ⟨_, heq⟩ | ⟨a, _, _, _, _, _, hauth, _, _, _, _, _⟩
      · rw [heq]
        exact hhyd.1
      · exact hauth
    have husr1 : (initAuth b n (initSys c).st (initSys c).cache).1.user.isSome
        = true := by
      rcases initAuth_parts b n (initSys c).st (initSys c).cache with
        ⟨_, heq⟩ | ⟨a, _, _, _, _, _, _, husr, _, _, _, _⟩
      · rw [heq]
        exact hhyd.2
      · rw [husr]
        exact hhyd.2
    refine ⟨?_, ?_, ?_⟩
    · rw [(runEffects_parts _ _).2.2.2.2.2.2.1]
      simp [hnot, initSys]
    · rw [(runEffects_parts _ _).2.2.1]
      exact hauth1
    · rw [runEffects_user_of_auth hauth1]
      exact husr1

theorem step_emit (sys : Sys) (e : Event) (hF : InvF sys) :
    (step sys e).emitted = sys.emitted ∨
    (step sys e).emitted = sys.emitted ++ [false] ∨
    ((step sys e).emitted = sys.emitted ++ [true] ∧
     (sys.st.isAuthenticated && sys.st.user.isSome) = false ∧
     ((step sys e).st.isAuthenticated && (step sys e).st.user.isSome) = true) := by
  cases e with
  | bridgeReady bd =>
    left
    exact (runEffects_parts _ _).2.2.2.2.2.2.1
  | refreshAuth bd =>
    left
    exact (runEffects_parts _ _).2.2.2.2.2.2.1
  | refreshUser =>
    left
    have hstep : step sys Event.refreshUser =
        runEffects sys.st (refreshUserInfo sys) := rfl
    rw [hstep, (runEffects_parts _ _).2.2.2.2.2.2.1]
    rcases refreshUserInfo_parts sys with heq | ⟨_, _, _, _, _, _, heq⟩ <;> rw [heq]
  | clear bp =>
    right
    left
    have hstep : step sys (Event.clear bp) =
        runEffects sys.st (clearAuth bp sys) := rfl
    rw [hstep, (runEffects_parts _ _).2.2.2.2.2.2.1]
    rfl
  | fetchResolve i outcome now =>
    have hstep : step sys (Event.fetchResolve i outcome now) =
        runEffects sys.st (resolveFetch i outcome now sys).1 := rfl
    rcases hget : sys.fetches.get? i with _ | f
    · left
      rw [hstep, resolveFetch_oob hget]
      exact (runEffects_parts _ _).2.2.2.2.2.2.1
    · cases hab2 : f.aborted
      · cases outcome with
        | none =>
          left
          rw [hstep, resolveFetch_failure hget hab2]
          exact (runEffects_parts _ _).2.2.2.2.2.2.1
        | some info =>
          cases hve : f.viaEffect
          · left
            rw [hstep, resolveFetch_success hget hab2,
              (runEffects_parts _ _).2.2.2.2.2.2.1]
            simp [hve]
          · right
            right
            have hpre := hF f (List.get?_mem hget) hve hab2
            refine ⟨?_, ?_, ?_⟩
            · rw [hstep, resolveFetch_success hget hab2,
                (runEffects_parts _ _).2.2.2.2.2.2.1]
              simp [hve]
            · rw [hpre.1, hpre.2]
              rfl
            · have hauth1 : (resolveFetch i (some info) now sys).1.st.isAuthenticated
                  = true := by
                rw [resolveFetch_success hget hab2]
                exact hpre.2
              rw [hstep, (runEffects_parts _ _).2.2.1,
                runEffects_user_of_auth hauth1, hauth1,
                resolveFetch_success hget hab2]
              simp
      · left
        rw [hstep, resolveFetch_aborted hget hab2]
        exact (runEffects_parts _ _).2.2.2.2.2.2.1

theorem c1inv_of_eq {c : Cache} {acc : Option BridgeAuth} {s1 s2 : Sys}
    (ht : s2.st.token = s1.st.token) (hu : s2.st.userId = s1.st.userId)
    (ha : s2.cache.auth = s1.cache.auth) (h : C1Inv c acc s1) : C1Inv c acc s2 := by
  cases acc with
  | none => exact ⟨by rw [ht, hu]; exact h.1, by rw [ha]; exact h.2⟩
  | some a =>
    obtain ⟨cid, hc⟩ := h.2.2
    exact ⟨ht.trans h.1, hu.trans h.2.1, cid, ha.trans hc⟩

theorem hydrateFromStorage_base (now : Int) (st0 : AuthState) (c : Cache)
    (htk : st0.token = none) (hui : st0.userId = none) :
    ((hydrateFromStorage now st0 c).1.token,
     (hydrateFromStorage now st0 c).1.userId) = cachePair c ∧
    (hydrateFromStorage now st0 c).2.1.auth = c.auth := by
  unfold hydrateFromStorage cachePair
  repeat' split
  all_goals try simp_all
  all_goals (constructor <;> (repeat' split) <;> simp_all)

theorem c1_init (c : Cache) (b : Option BridgeData) (n : Int) :
    C1Inv c (bridgeValid b) (stepInit b n (initSys c)) := by
  obtain ⟨hp, ha⟩ := hydrateFromStorage_base n (initSys c).st (initSys c).cache rfl rfl
  have hstep : stepInit b n (initSys c) = runEffects (initSys c).st
    { initSys c with
      st := (initAuth b n (initSys c).st (initSys c).cache).1,
      cache := (initAuth b n (initSys c).st (initSys c).cache).2.1,
      emitted := (initSys c).emitted ++
        (if (initAuth b n (initSys c).st (initSys c).cache).2.2 then [true]
         else []) } := rfl
  rcases initAuth_parts b n (initSys c).st (initSys c).cache with
    ⟨hv, heq⟩ | ⟨a, hv, _, _, htok, huid, _, _, _, _, ⟨cid, hca⟩, _⟩
  · rw [hv]
    show ((stepInit b n (initSys c)).st.token,
      (stepInit b n (initSys c)).st.userId) = cachePair c ∧
      (stepInit b n (initSys c)).cache.auth = c.auth
    have e1 : (stepInit b n (initSys c)).st.token =
        (hydrateFromStorage n (initSys c).st (initSys c).cache).1.token := by
      rw [hstep, (runEffects_parts _ _).1, heq]
    have e2 : (stepInit b n (initSys c)).st.userId =
        (hydrateFromStorage n (initSys c).st (initSys c).cache).1.userId := by
      rw [hstep, (runEffects_parts _ _).2.1, heq]
    have e3 : (stepInit b n (initSys c)).cache.auth =
        (hydrateFromStorage n (initSys c).st (initSys c).cache).2.1.auth := by
      rw [hstep, (runEffects_parts _ _).2.2.2.2.2.1, heq]
    rw [e1, e2, e3]
    exact ⟨hp, ha⟩
  · rw [hv]
    refine ⟨?_, ?_, cid, ?_⟩
    · rw [hstep, (runEffects_parts _ _).1]
      exact htok
    · rw [hstep, (runEffects_parts _ _).2.1]
      exact huid
    · rw [hstep, (runEffects_parts _ _).2.2.2.2.2.1]
      exact hca

theorem c1_bridgeReady (c : Cache) (acc : Option BridgeAuth) (sys : Sys)
    (bd : Option BridgeData) (h : C1Inv c acc sys) :
    C1Inv c (latestBridge acc bd) (step sys (Event.bridgeReady bd)) := by
  have hstep : step sys (Event.bridgeReady bd) = runEffects sys.st
    { sys with st := (handleSwitchBridgeAuth bd sys.st sys.cache).1,
               cache := (handleSwitchBridgeAuth bd sys.st sys.cache).2 } := rfl
  rcases handleSwitchBridgeAuth_parts bd sys.st sys.cache with
    ⟨hv, heq⟩ | ⟨a, hv, htok, huid, _, _, _, _, cid, hca⟩
  · rw [show latestBridge acc bd = acc from by unfold latestBridge; rw [hv]]
    refine c1inv_of_eq ?_ ?_ ?_ h
    · rw [hstep, (runEffects_parts _ _).1, heq]
    · rw [hstep, (runEffects_parts _ _).2.1, heq]
    · rw [hstep, (runEffects_parts _ _).2.2.2.2.2.1, heq]
  · rw [show latestBridge acc bd = some a from by unfold latestBridge; rw [hv]]
    refine ⟨?_, ?_, cid, ?_⟩
    · rw [hstep, (runEffects_parts _ _).1]
      exact htok
    · rw [hstep, (runEffects_parts _ _).2.1]
      exact huid
    · rw [hstep, (runEffects_parts _ _).2.2.2.2.2.1]
      exact hca

theorem c1_fold (c : Cache) (bds : List (Option BridgeData)) :
    ∀ (acc : Option BridgeAuth) (sys : Sys), C1Inv c acc sys →
    C1Inv c (bds.foldl latestBridge acc)
      ((bds.map Event.bridgeReady).foldl step sys) := by
  induction bds with
  | nil => exact fun acc sys h => h
  | cons bd t ih =>
    intro acc sys h
    simp only [List.map_cons, List.foldl_cons]
    exact ih _ _ (c1_bridgeReady c acc sys bd h)

theorem lt_length_of_get? {l : List Fetch} {i : Nat} {f : Fetch}
    (h : l.get? i = some f) : i < l.length := by
  by_contra hn
  rw [List.get?_eq_none.mpr (Nat.le_of_not_lt hn)] at h
  exact nomatch h

theorem startEffectFetch_no (sys : Sys) (h : sys.st.isAuthenticated = false) :
    startEffectFetch sys = sys := by
  unfold startEffectFetch
  rcases htok : sys.st.token with _ | t
  · rfl
  · rcases huid : sys.st.userId with _ | u
    · rfl
    · dsimp only
      rw [if_neg (by simp [h])]

theorem startEffectFetch_no_user (sys : Sys) (h : sys.st.user.isNone = false) :
    startEffectFetch sys = sys := by
  unfold startEffectFetch
  rcases htok : sys.st.token with _ | t
  · rfl
  · rcases huid : sys.st.userId with _ | u
    · rfl
    · dsimp only
      rw [if_neg (by simp [h])]

theorem clearUserEffect_cases (st : AuthState) :
    clearUserEffect st = st ∨
    (st.isAuthenticated = false ∧ clearUserEffect st = { st with user := none }) := by
  unfold clearUserEffect
  split
  · rename_i hc
    simp only [Bool.and_eq_true, Bool.not_eq_true'] at hc
    exact Or.inr ⟨hc.1, rfl⟩
  · exact Or.inl rfl

theorem runEffects_tail (prev : AuthState) (sys : Sys)
    (hcu : clearUserEffect (fetchEffect prev sys).st = (fetchEffect prev sys).st) :
    runEffects prev sys = fetchEffect prev sys := by
  unfold runEffects
  dsimp only
  rw [show ({ fetchEffect prev sys with
      st := clearUserEffect (fetchEffect prev sys).st } : Sys) = fetchEffect prev sys
    from by rw [hcu]]
  exact fetchEffect_of_deps_eq rfl

theorem fetchEffect_no_start {prev : AuthState} {sys : Sys}
    (h : sys.st.isAuthenticated = false ∨ sys.st.user.isNone = false) :
    fetchEffect prev sys = sys ∨
    fetchEffect prev sys = { sys with fetches := abortEffectFetches sys.fetches } := by
  unfold fetchEffect
  split
  · exact Or.inl rfl
  · rcases h with h | h
    · exact Or.inr (startEffectFetch_no _ h)
    · exact Or.inr (startEffectFetch_no_user _ h)

theorem runEffects_no_start {prev : AuthState} {sys : Sys}
    (hna : sys.st.isAuthenticated = false) (hnu : sys.st.user = none) :
    runEffects prev sys = sys ∨
    runEffects prev sys = { sys with fetches := abortEffectFetches sys.fetches } := by
  have hcu : clearUserEffect (fetchEffect prev sys).st = (fetchEffect prev sys).st := by
    rcases @fetchEffect_no_start prev sys (Or.inl hna) with h | h <;> rw [h] <;>
      exact clearUserEffect_id_of (fun _ => hnu)
  rw [runEffects_tail prev sys hcu]
  exact fetchEffect_no_start (Or.inl hna)

theorem step_clear_eq (sys : Sys) (bp : Bool) :
    step sys (Event.clear bp) = clearAuth bp sys ∨
    step sys (Event.clear bp) =
      { clearAuth bp sys with
        fetches := abortEffectFetches (clearAuth bp sys).fetches } := by
  have hstep : step sys (Event.clear bp) = runEffects sys.st (clearAuth bp sys) := rfl
  rw [hstep]
  exact runEffects_no_start rfl rfl

theorem startEffectFetch_parts (sys : Sys) :
    (startEffectFetch sys).st.token = sys.st.token ∧
    (startEffectFetch sys).st.userId = sys.st.userId ∧
    (startEffectFetch sys).st.user = sys.st.user ∧
    (startEffectFetch sys).st.isAuthenticated = sys.st.isAuthenticated ∧
    (startEffectFetch sys).cache = sys.cache ∧
    (startEffectFetch sys).emitted = sys.emitted := by
  unfold startEffectFetch
  repeat' split <;> simp_all

theorem startEffectFetch_fetches (sys : Sys) :
    (startEffectFetch sys).fetches = sys.fetches ∨
    ∃ t u, sys.st.token = some t ∧ sys.st.userId = some u ∧
      (startEffectFetch sys).fetches = sys.fetches ++
        [{ token := t, userId := u, aborted := false, viaEffect := true }] := by
  unfold startEffectFetch
  rcases htok : sys.st.token with _ | t
  · exact Or.inl rfl
  · rcases huid : sys.st.userId with _ | u
    · exact Or.inl rfl
    · dsimp only
      split
      · exact Or.inr ⟨t, u, rfl, rfl, rfl⟩
      · exact Or.inl rfl

theorem runEffects_effect_ran {prev : AuthState} {sys : Sys}
    (hauth : sys.st.isAuthenticated = true) (hdne : ¬ deps sys.st = deps prev) :
    runEffects prev sys =
      startEffectFetch { sys with fetches := abortEffectFetches sys.fetches } := by
  have h1 : fetchEffect prev sys =
      startEffectFetch { sys with fetches := abortEffectFetches sys.fetches } := by
    unfold fetchEffect
    rw [if_neg hdne]
  have hsa : (startEffectFetch
      { sys with fetches := abortEffectFetches sys.fetches }).st.isAuthenticated
      = true :=
    ((startEffectFetch_parts _).2.2.2.1).trans hauth
  have hcu : clearUserEffect (fetchEffect prev sys).st = (fetchEffect prev sys).st := by
    rw [h1]
    exact clearUserEffect_id_of (fun hfalse => nomatch hsa.symm.trans hfalse)
  rw [runEffects_tail prev sys hcu]
  exact h1

theorem runEffects_st_no_start {prev : AuthState} {sys : Sys}
    (h : sys.st.isAuthenticated = false ∨ sys.st.user.isNone = false) :
    (runEffects prev sys).st = sys.st ∨
    (runEffects prev sys).st = { sys.st with user := none } := by
  unfold runEffects
  dsimp only
  rcases @fetchEffect_no_start prev sys h with h1 | h1 <;> rw [h1] <;>
    (try dsimp only) <;>
    rcases clearUserEffect_cases sys.st with h2 | ⟨hna, h2⟩ <;> rw [h2]
  · rcases @fetchEffect_no_start sys.st sys h with h3 | h3 <;> rw [h3] <;>
      exact Or.inl rfl
  · rcases @fetchEffect_no_start sys.st
        { sys with st := { sys.st with user := none } } (Or.inl hna) with h3 | h3 <;>
      rw [h3] <;> exact Or.inr rfl
  · rcases @fetchEffect_no_start sys.st
        { sys with fetches := abortEffectFetches sys.fetches } h with h3 | h3 <;>
      rw [h3] <;> exact Or.inl rfl
  · rcases @fetchEffect_no_start sys.st
        { sys with st := { sys.st with user := none },
                   fetches := abortEffectFetches sys.fetches } (Or.inl hna)
      with h3 | h3 <;> rw [h3] <;> exact Or.inr rfl

theorem stepInit_user_of_auth (b : Option BridgeData) (n : Int) (sys : Sys)
    (h : (initAuth b n sys.st sys.cache).1.isAuthenticated = true) :
    (stepInit b n sys).st.user = (initAuth b n sys.st sys.cache).1.user := by
  unfold stepInit
  dsimp only
  exact runEffects_user_of_auth h

theorem step_resolve_failure_eq (c : Cache) (b : Option BridgeData) (n : Int)
    (evs : List Event) (i : Nat) (now : Int) (f : Fetch)
    (hf : (run c b n evs).fetches.get? i = some f) (ha : f.aborted = false) :
    step (run c b n evs) (Event.fetchResolve i none now) =
      { run c b n evs with
        st := { (run c b n evs).st with userLoading := false },
        fetches := (run c b n evs).fetches.eraseIdx i } := by
  show runEffects (run c b n evs).st (resolveFetch i none now (run c b n evs)).1 = _
  rw [resolveFetch_failure hf ha]
  exact runEffects_id rfl (clearUserEffect_id_of (run_inv3 c b n evs))

theorem step_resolve_aborted_eq (c : Cache) (b : Option BridgeData) (n : Int)
    (evs : List Event) (i : Nat) (outcome : Option UserInfo) (now : Int) (f : Fetch)
    (hf : (run c b n evs).fetches.get? i = some f) (ha : f.aborted = true) :
    step (run c b n evs) (Event.fetchResolve i outcome now) =
      { run c b n evs with fetches := (run c b n evs).fetches.eraseIdx i } := by
  show runEffects (run c b n evs).st (resolveFetch i outcome now (run c b n evs)).1 = _
  rw [resolveFetch_aborted hf ha]
  exact runEffects_id rfl (clearUserEffect_id_of (run_inv3 c b n evs))

theorem step_resolve_success_userLoading (sys : Sys) (i : Nat) (info : UserInfo)
    (now : Int) (f : Fetch) (hf : sys.fetches.get? i = some f)
    (ha : f.aborted = false) :
    (step sys (Event.fetchResolve i (some info) now)).st.userLoading = false := by
  have hstep : step sys (Event.fetchResolve i (some info) now) =
      runEffects sys.st (resolveFetch i (some info) now sys).1 := rfl
  rw [hstep]
  rcases @runEffects_st_no_start sys.st (resolveFetch i (some info) now sys).1
      (Or.inr (by rw [resolveFetch_success hf ha]; rfl)) with h | h <;>
    rw [h, resolveFetch_success hf ha]

/-- C4 (amended): for fetches started by the provider effect (which carry the
effect AbortSignal): if such a fetch is in flight for a pair different from
what a bridge-ready event yields, the event marks it aborted, any live
effect-started fetch afterwards is for the new bridge pair only, and the
aborted fetch resolution leaves the snapshot state unchanged. -/
theorem c4_effect_fetch_cancellation (sys : Sys) (i : Nat) (f : Fetch) (bd : Option BridgeData)
    (a : BridgeAuth) (outcome : Option UserInfo) (now : Int)
    (hf : sys.fetches.get? i = some f) (hv : f.viaEffect = true)
    (hl : f.aborted = false) (hb : bridgeValid bd = some a)
    (hne : sys.st.token ≠ some a.token ∨ sys.st.userId ≠ some a.userId) :
    ((step sys (Event.bridgeReady bd)).fetches.get? i).map Fetch.aborted =
      some true ∧
    (∀ g ∈ (step sys (Event.bridgeReady bd)).fetches, g.aborted = false →
      g.viaEffect = true → g.token = a.token ∧ g.userId = a.userId) ∧
    (step (step sys (Event.bridgeReady bd))
        (Event.fetchResolve i outcome now)).st =
      (step sys (Event.bridgeReady bd)).st := by
  rcases handleSwitchBridgeAuth_parts bd sys.st sys.cache with
    ⟨hv0, _⟩ | ⟨a2, hv2, htok, huid, hauth, husr, hul, hcu2, cid, hca⟩
  · rw [hv0] at hb
    exact nomatch hb
  · have ha2 : a = a2 := Option.some.inj (hb.symm.trans hv2)
    subst ha2
    have hstep : step sys (Event.bridgeReady bd) = runEffects sys.st
      { sys with st := (handleSwitchBridgeAuth bd sys.st sys.cache).1,
                 cache := (handleSwitchBridgeAuth bd sys.st sys.cache).2 } := rfl
    have hdne : ¬ deps ({ sys with
        st := (handleSwitchBridgeAuth bd sys.st sys.cache).1,
        cache := (handleSwitchBridgeAuth bd sys.st sys.cache).2 } : Sys).st =
        deps sys.st := by
      intro hdeq
      obtain ⟨e1, e2, _, _⟩ := deps_eq_iff.mp hdeq
      rcases hne with hl2 | hl2
      · exact hl2 (e1.symm.trans htok)
      · exact hl2 (e2.symm.trans huid)
    have hre := runEffects_effect_ran hauth hdne
    have hgx : (abortEffectFetches sys.fetches).get? i =
        some { f with aborted := true } := by
      unfold abortEffectFetches
      rw [List.get?_map, hf]
      simp [hv]
    have hlen : i < (abortEffectFetches sys.fetches).length := by
      unfold abortEffectFetches
      rw [List.length_map]
      exact lt_length_of_get? hf
    have hget2 : ((step sys (Event.bridgeReady bd)).fetches.get? i) =
        some { f with aborted := true } := by
      rw [hstep, hre]
      rcases startEffectFetch_fetches
        { { sys with st := (handleSwitchBridgeAuth bd sys.st sys.cache).1,
                     cache := (handleSwitchBridgeAuth bd sys.st sys.cache).2 } with
          fetches := abortEffectFetches sys.fetches } with hcase | ⟨t, u, _, _, hcase⟩
      · rw [hcase]
        exact hgx
      · rw [hcase, List.get?_append hlen]
        exact hgx
    refine ⟨by rw [hget2]; rfl, ?_, ?_⟩
    · intro g hg hga hgv
      rw [hstep, hre] at hg
      rcases startEffectFetch_fetches
        { { sys with st := (handleSwitchBridgeAuth bd sys.st sys.cache).1,
                     cache := (handleSwitchBridgeAuth bd sys.st sys.cache).2 } with
          fetches := abortEffectFetches sys.fetches } with hcase | ⟨t, u, ht2, hu2, hcase⟩
      · rw [hcase] at hg
        exact (abortEffectFetches_dead sys.fetches g hg hgv hga).elim
      · rw [hcase] at hg
        rcases List.mem_append.mp hg with hm | hm
        · exact (abortEffectFetches_dead sys.fetches g hm hgv hga).elim
        · have hgeq : g = ⟨t, u, false, true⟩ := by simpa using hm
          have ht3 : some t = some a.token := ht2.symm.trans htok
          have hu3 : some u = some a.userId := hu2.symm.trans huid
          rw [hgeq]
          exact ⟨Option.some.inj ht3, Option.some.inj hu3⟩
    · have hauth2 : (step sys (Event.bridgeReady bd)).st.isAuthenticated = true := by
        rw [hstep, hre]
        exact ((startEffectFetch_parts _).2.2.2.1).trans hauth
      have hstep2 : step (step sys (Event.bridgeReady bd))
          (Event.fetchResolve i outcome now) =
          runEffects (step sys (Event.bridgeReady bd)).st
            (resolveFetch i outcome now (step sys (Event.bridgeReady bd))).1 := rfl
      rw [hstep2, resolveFetch_aborted hget2 rfl]
      dsimp only
      have hid : runEffects (step sys (Event.bridgeReady bd)).st
          ({ step sys (Event.bridgeReady bd) with
             fetches := (step sys (Event.bridgeReady bd)).fetches.eraseIdx i } : Sys) =
          { step sys (Event.bridgeReady bd) with
            fetches := (step sys (Event.bridgeReady bd)).fetches.eraseIdx i } :=
        runEffects_id rfl
          (clearUserEffect_id_of (fun hfa => nomatch hauth2.symm.trans hfa))
      rw [hid]

/-- C3 (amended): during resolution a persisted cached profile is adopted
whenever it is present, parseable and non-expired — its userId is never
compared with the provisional userId, so any profile record (including one
with a different userId) is written into the snapshot. -/
theorem c3_profile_adoption (bridge : Option BridgeData) (now T : Int) (t u : String)
    (cid : Option String) (data : UserInfo)
    (ht : struthy t = true) (hu : struthy u = true)
    (hfresh : ¬ now - T > CACHE_DURATION) :
    (stepInit bridge now
      (initSys ⟨some (StoredAuth.record (some t) (some u) cid),
                some (StoredUser.record (some data) T)⟩)).st.user = some data := by
  obtain ⟨H1, H2, H3, H4, H5, H6⟩ :=
    hydrateFromStorage_fresh now T initialState t u cid data ht hu hfresh
  rcases initAuth_parts bridge now
      (initSys ⟨some (StoredAuth.record (some t) (some u) cid),
                some (StoredUser.record (some data) T)⟩).st
      (initSys ⟨some (StoredAuth.record (some t) (some u) cid),
                some (StoredUser.record (some data) T)⟩).cache with
    ⟨hv, heq⟩ | ⟨a, hv, hat, hau, htok, huid, hauth, husr, hul, hcu, ⟨cid2, hca⟩, hnot⟩
  · have hauth1 : (initAuth bridge now
        (initSys ⟨some (StoredAuth.record (some t) (some u) cid),
                  some (StoredUser.record (some data) T)⟩).st
        (initSys ⟨some (StoredAuth.record (some t) (some u) cid),
                  some (StoredUser.record (some data) T)⟩).cache).1.isAuthenticated
        = true := by
      rw [heq]
      exact H3
    rw [stepInit_user_of_auth _ _ _ hauth1, heq]
    exact H4
  · rw [stepInit_user_of_auth _ _ _ hauth, husr]
    exact H4

/-- C7 (amended): clear() resets token, userId and profile to absent and
isAuthenticated to false, leaves communityId untouched, deletes both persisted
cache entries, calls the bridge clearData exactly when the bridge is present,
and emits exactly one unauthenticated signal; a second clear() changes nothing
further beyond re-emitting the signal. -/
theorem c7_clear_behavior (sys : Sys) (bp bp2 : Bool) :
    (step sys (Event.clear bp)).st.token = none ∧
    (step sys (Event.clear bp)).st.userId = none ∧
    (step sys (Event.clear bp)).st.user = none ∧
    (step sys (Event.clear bp)).st.isAuthenticated = false ∧
    (step sys (Event.clear bp)).st.communityId = sys.st.communityId ∧
    (step sys (Event.clear bp)).cache = ⟨none, none⟩ ∧
    (step sys (Event.clear bp)).emitted = sys.emitted ++ [false] ∧
    (step sys (Event.clear bp)).bridgeCleared =
      sys.bridgeCleared + (if bp then 1 else 0) ∧
    (step (step sys (Event.clear bp)) (Event.clear bp2)).st =
      (step sys (Event.clear bp)).st ∧
    (step (step sys (Event.clear bp)) (Event.clear bp2)).cache =
      (step sys (Event.clear bp)).cache ∧
    (step (step sys (Event.clear bp)) (Event.clear bp2)).fetches =
      (step sys (Event.clear bp)).fetches ∧
    (step (step sys (Event.clear bp)) (Event.clear bp2)).emitted =
      (step sys (Event.clear bp)).emitted ++ [false] := by
  have hsecond : ∀ s2 : Sys, s2.st.token = none → s2.st.userId = none →
      s2.st.user = none → s2.st.isAuthenticated = false →
      step s2 (Event.clear bp2) = clearAuth bp2 s2 := by
    intro s2 e1 e2 e3 e4
    show runEffects s2.st (clearAuth bp2 s2) = clearAuth bp2 s2
    have hst : (clearAuth bp2 s2).st = s2.st := by
      refine authState_ext ?_ ?_ ?_ ?_ rfl rfl rfl
      · exact e1.symm
      · exact e2.symm
      · exact e3.symm
      · exact e4.symm
    refine runEffects_id ?_ (clearUserEffect_id_of (fun _ => rfl))
    rw [hst]
  rcases step_clear_eq sys bp with h | h <;> rw [h] <;>
    rw [hsecond _ rfl rfl rfl rfl] <;>
    exact ⟨rfl, rfl, rfl, rfl, rfl, rfl, rfl, rfl, rfl, rfl, rfl, rfl⟩

/-- C10 (amended): userLoading is reset to false when a live (un-cancelled)
fetch terminates, with failure or success; the termination of a cancelled
fetch leaves the provider state — including userLoading — entirely unchanged,
so userLoading can remain true with no fetch in flight. -/
theorem c10_userLoading_behavior (c : Cache) (b : Option BridgeData) (n : Int) (evs : List Event) :
    (∀ i now f, (run c b n evs).fetches.get? i = some f → f.aborted = false →
      (step (run c b n evs) (Event.fetchResolve i none now)).st.userLoading = false) ∧
    (∀ i info now f, (run c b n evs).fetches.get? i = some f → f.aborted = false →
      (step (run c b n evs)
        (Event.fetchResolve i (some info) now)).st.userLoading = false) ∧
    (∀ i outcome now f, (run c b n evs).fetches.get? i = some f → f.aborted = true →
      (step (run c b n evs) (Event.fetchResolve i outcome now)).st =
        (run c b n evs).st) := by
  refine ⟨?_, ?_, ?_⟩
  · intro i now f hf ha
    rw [step_resolve_failure_eq c b n evs i now f hf ha]
  · intro i info now f hf ha
    exact step_resolve_success_userLoading _ i info now f hf ha
  · intro i outcome now f hf ha
    rw [step_resolve_aborted_eq c b n evs i outcome now f hf ha]

/-- C5: the "authenticated" (true) signal is emitted at most once per step,
only on a transition from a state that is not fully resolved (authenticated
with profile) into one that is; in particular it is never emitted while the
snapshot holds a bare token/userId pair without profile, and a step that does
not make this transition (such as re-resolving an identical triple) emits no
new true signal. -/
theorem c5_authenticated_signal (c : Cache) (b : Option BridgeData) (n : Int) (evs : List Event)
    (e : Event) :
    ((run c b n []).emitted.count true ≤ 1 ∧
     ((run c b n []).emitted.count true = 1 →
       ((run c b n []).st.isAuthenticated && (run c b n []).st.user.isSome) = true)) ∧
    ((run c b n (evs ++ [e])).emitted.count true ≤
       (run c b n evs).emitted.count true + 1 ∧
     ((run c b n evs).emitted.count true <
        (run c b n (evs ++ [e])).emitted.count true →
       ((run c b n evs).st.isAuthenticated &&
          (run c b n evs).st.user.isSome) = false ∧
       ((run c b n (evs ++ [e])).st.isAuthenticated &&
          (run c b n (evs ++ [e])).st.user.isSome) = true ∧
       (run c b n (evs ++ [e])).emitted.count true =
         (run c b n evs).emitted.count true + 1)) := by
  constructor
  · have hrw : run c b n [] = stepInit b n (initSys c) := rfl
    rw [hrw]
    rcases stepInit_emit c b n with h | ⟨h, ha, hu⟩
    · rw [h]
      exact ⟨by simp, fun h1 => by simp at h1⟩
    · rw [h, ha, hu]
      exact ⟨by simp, fun _ => rfl⟩
  · rw [run_snoc c b n evs e]
    rcases step_emit (run c b n evs) e (inv_run c b n evs).2 with h | h | ⟨h, hpre, hpost⟩
    · rw [h]
      exact ⟨Nat.le_succ _, fun hlt => absurd hlt (lt_irrefl _)⟩
    · rw [h]
      constructor
      · rw [List.count_append]
        simp
      · intro hlt
        rw [List.count_append] at hlt
        simp at hlt
    · rw [h]
      constructor
      · rw [List.count_append]
        simp
      · intro _
        refine ⟨hpre, hpost, ?_⟩
        rw [List.count_append]
        simp

theorem fetchEffect_congr (prev : AuthState) (s1 s2 : Sys)
    (hst : s1.st = s2.st) (hf : s1.fetches = s2.fetches) :
    (fetchEffect prev s1).st = (fetchEffect prev s2).st ∧
    (fetchEffect prev s1).fetches = (fetchEffect prev s2).fetches := by
  unfold fetchEffect startEffectFetch
  repeat' split <;> simp_all

theorem runEffects_congr (prev : AuthState) (s1 s2 : Sys)
    (hst : s1.st = s2.st) (hf : s1.fetches = s2.fetches) :
    (runEffects prev s1).st = (runEffects prev s2).st ∧
    (runEffects prev s1).fetches = (runEffects prev s2).fetches := by
  obtain ⟨h1, h2⟩ := fetchEffect_congr prev s1 s2 hst hf
  unfold runEffects
  dsimp only
  rw [h1, h2]
  exact fetchEffect_congr _ _ _ rfl rfl

theorem initAuth_c9a (b : Option BridgeData) (n : Int) (cu : Option StoredUser) :
    (initAuth b n initialState ⟨some StoredAuth.malformed, cu⟩).1 =
      (initAuth b n initialState ⟨none, cu⟩).1 ∧
    (initAuth b n initialState ⟨some StoredAuth.malformed, cu⟩).2.2 = false ∧
    (initAuth b n initialState ⟨none, cu⟩).2.2 = false ∧
    (initAuth b n initialState ⟨some StoredAuth.malformed, cu⟩).2.1.user = cu ∧
    (initAuth b n initialState ⟨none, cu⟩).2.1.user = cu := by
  unfold initAuth hydrateFromStorage applyBridgeAuth
  dsimp only
  repeat' split
  all_goals simp_all

theorem initAuth_c9b (b : Option BridgeData) (n : Int) (ca : Option StoredAuth) :
    (initAuth b n initialState ⟨ca, some StoredUser.malformed⟩).1 =
      (initAuth b n initialState ⟨ca, none⟩).1 ∧
    (initAuth b n initialState ⟨ca, some StoredUser.malformed⟩).2.2 = false ∧
    (initAuth b n initialState ⟨ca, none⟩).2.2 = false ∧
    (initAuth b n initialState ⟨ca, some StoredUser.malformed⟩).2.1.auth =
      (initAuth b n initialState ⟨ca, none⟩).2.1.auth := by
  unfold initAuth hydrateFromStorage applyBridgeAuth
  dsimp only
  repeat' split
  all_goals simp_all

theorem stepInit_rfl (b : Option BridgeData) (n : Int) (c : Cache) :
    stepInit b n (initSys c) = runEffects initialState
      ({ st := (initAuth b n initialState c).1,
         cache := (initAuth b n initialState c).2.1,
         fetches := [],
         emitted := [] ++
           (if (initAuth b n initialState c).2.2 then [true] else []),
         bridgeCleared := 0 } : Sys) := rfl

theorem stepInit_c9 (b : Option BridgeData) (n : Int) (c1 c2 : Cache)
    (hst : (initAuth b n initialState c1).1 = (initAuth b n initialState c2).1)
    (hf1 : (initAuth b n initialState c1).2.2 = false)
    (hf2 : (initAuth b n initialState c2).2.2 = false) :
    (stepInit b n (initSys c1)).st = (stepInit b n (initSys c2)).st ∧
    (stepInit b n (initSys c1)).fetches = (stepInit b n (initSys c2)).fetches ∧
    (stepInit b n (initSys c1)).emitted = [] ∧
    (stepInit b n (initSys c2)).emitted = [] ∧
    (stepInit b n (initSys c1)).cache = (initAuth b n initialState c1).2.1 ∧
    (stepInit b n (initSys c2)).cache = (initAuth b n initialState c2).2.1 := by
  rw [stepInit_rfl b n c1, stepInit_rfl b n c2]
  obtain ⟨e1, e2⟩ := runEffects_congr initialState
    ({ st := (initAuth b n initialState c1).1,
       cache := (initAuth b n initialState c1).2.1,
       fetches := [],
       emitted := [] ++
         (if (initAuth b n initialState c1).2.2 then [true] else []),
       bridgeCleared := 0 } : Sys)
    ({ st := (initAuth b n initialState c2).1,
       cache := (initAuth b n initialState c2).2.1,
       fetches := [],
       emitted := [] ++
         (if (initAuth b n initialState c2).2.2 then [true] else []),
       bridgeCleared := 0 } : Sys) hst rfl
  refine ⟨e1, e2, ?_, ?_, ?_, ?_⟩
  · rw [(runEffects_parts _ _).2.2.2.2.2.2.1]
    simp [hf1]
  · rw [(runEffects_parts _ _).2.2.2.2.2.2.1]
    simp [hf2]
  · exact (runEffects_parts _ _).2.2.2.2.2.1
  · exact (runEffects_parts _ _).2.2.2.2.2.1

/-- C9: a malformed (unparseable) switchx_auth or switchx_user entry makes the
resolution behave exactly as a cache miss: the resulting provider state,
pending fetches and emitted signals coincide with those of a run whose
corresponding cache entry is absent, and resolution proceeds to the remaining
steps; the embedding is total, so no input makes it throw. -/
theorem c9_malformed_cache (b : Option BridgeData) (n : Int) (cu : Option StoredUser)
    (ca : Option StoredAuth) :
    ((stepInit b n (initSys ⟨some StoredAuth.malformed, cu⟩)).st =
       (stepInit b n (initSys ⟨none, cu⟩)).st ∧
     (stepInit b n (initSys ⟨some StoredAuth.malformed, cu⟩)).fetches =
       (stepInit b n (initSys ⟨none, cu⟩)).fetches ∧
     (stepInit b n (initSys ⟨some StoredAuth.malformed, cu⟩)).emitted =
       (stepInit b n (initSys ⟨none, cu⟩)).emitted ∧
     (stepInit b n (initSys ⟨some StoredAuth.malformed, cu⟩)).cache.user = cu ∧
     (stepInit b n (initSys ⟨none, cu⟩)).cache.user = cu) ∧
    ((stepInit b n (initSys ⟨ca, some StoredUser.malformed⟩)).st =
       (stepInit b n (initSys ⟨ca, none⟩)).st ∧
     (stepInit b n (initSys ⟨ca, some StoredUser.malformed⟩)).fetches =
       (stepInit b n (initSys ⟨ca, none⟩)).fetches ∧
     (stepInit b n (initSys ⟨ca, some StoredUser.malformed⟩)).emitted =
       (stepInit b n (initSys ⟨ca, none⟩)).emitted ∧
     (stepInit b n (initSys ⟨ca, some StoredUser.malformed⟩)).cache.auth =
       (stepInit b n (initSys ⟨ca, none⟩)).cache.auth) := by
  constructor
  · obtain ⟨ha1, ha2, ha3, ha4, ha5⟩ := initAuth_c9a b n cu
    obtain ⟨e1, e2, e3, e4, e5, e6⟩ :=
      stepInit_c9 b n ⟨some StoredAuth.malformed, cu⟩ ⟨none, cu⟩ ha1 ha2 ha3
    refine ⟨e1, e2, e3.trans e4.symm, ?_, ?_⟩
    · rw [e5]
      exact ha4
    · rw [e6]
      exact ha5
  · obtain ⟨hb1, hb2, hb3, hb4⟩ := initAuth_c9b b n ca
    obtain ⟨e1, e2, e3, e4, e5, e6⟩ :=
      stepInit_c9 b n ⟨ca, some StoredUser.malformed⟩ ⟨ca, none⟩ hb1 hb2 hb3
    refine ⟨e1, e2, e3.trans e4.symm, ?_⟩
    rw [e5, e6]
    exact hb4

/-- C3 counterexample: hydrating from a persisted auth entry for userId "V"
together with a fresh persisted profile whose userId is "U" yields a reachable
snapshot whose profile is present but whose profile.userId differs from the
snapshot userId — the source never compares the cached profile userId with the
provisional userId, refuting the claim as stated. -/
theorem c3_profile_mismatch_cex :
    (run cacheMismatch none 0 []).st.user.isSome = true ∧
    (run cacheMismatch none 0 []).st.user.map UserInfo.userId ≠
      (run cacheMismatch none 0 []).st.userId := by decide

/-- C4 counterexample: an explicit refreshUserInfo() call starts a profile
fetch for the pair ("tA", "U"); a bridge-ready event then yields the different
pair ("tB", "V"); the later completion of the ("tA", "U") fetch still writes
its result into the snapshot, because a fetch started without the provider
effect carries no AbortSignal — refuting the claim as stated. -/
theorem c4_stale_manual_fetch_cex :
    (run cacheFull none 0 [Event.refreshUser]).fetches =
      [{ token := "tA", userId := "U", aborted := false, viaEffect := false }] ∧
    (run cacheFull none 0 [Event.refreshUser,
        Event.bridgeReady bridgeBV]).st.userId = some "V" ∧
    (run cacheFull none 0 [Event.refreshUser,
        Event.bridgeReady bridgeBV]).st.user = some sampleUserU ∧
    (run cacheFull none 0 [Event.refreshUser, Event.bridgeReady bridgeBV,
        Event.fetchResolve 0 (some sampleUserU2) 1]).st.user =
      some sampleUserU2 := by decide

/-- C7 counterexample: after clear() from an authenticated state with a
community id, the snapshot field communityId is still present ("c"), so clear
does not reset all snapshot fields to absent/false as claimed. -/
theorem c7_clear_not_all_fields_cex :
    (run cacheCom none 0 [Event.clear false]).st.isAuthenticated = false ∧
    (run cacheCom none 0 [Event.clear false]).st.token = none ∧
    (run cacheCom none 0 [Event.clear false]).st.communityId = some "c" := by decide

/-- C10 counterexample: an effect-started profile fetch is cancelled by
clearAuth(); when the cancelled fetch then terminates, its finally block skips
setUserLoading(false), leaving userLoading = true although no fetch is in
flight — refuting the claimed iff. -/
theorem c10_userLoading_stuck_cex :
    (run cacheTU none 0
      [Event.clear false, Event.fetchResolve 0 none 1]).st.userLoading = true ∧
    (run cacheTU none 0
      [Event.clear false, Event.fetchResolve 0 none 1]).fetches = [] := by decide

theorem c3_profile_adoption_witness :
    struthy "t" = true ∧
    (stepInit none 0 (initSys ⟨some (StoredAuth.record (some "t") (some "V") none),
        some (StoredUser.record (some sampleUserU) 0)⟩)).st.user = some sampleUserU :=
  ⟨by decide, c3_profile_adoption none 0 0 "t" "V" none sampleUserU (by decide) (by decide)
    (by decide)⟩

theorem c4_effect_fetch_cancellation_witness :
    (run cacheTU none 0 []).fetches.get? 0 =
      some { token := "t", userId := "u", aborted := false, viaEffect := true } ∧
    ((step (run cacheTU none 0 []) (Event.bridgeReady bridgeBV)).fetches.get? 0).map
      Fetch.aborted = some true :=
  ⟨by decide,
   (c4_effect_fetch_cancellation (run cacheTU none 0 []) 0
      { token := "t", userId := "u", aborted := false, viaEffect := true }
      bridgeBV ⟨"tB", "V"⟩ none 1
      (by decide) (by decide) (by decide) (by decide) (Or.inl (by decide))).1⟩

theorem c5_authenticated_signal_witness :
    (run cacheTU none 0 []).emitted.count true <
      (run cacheTU none 0
        ([] ++ [Event.fetchResolve 0 (some sampleUserU) 5])).emitted.count true ∧
    ((run cacheTU none 0
        ([] ++ [Event.fetchResolve 0 (some sampleUserU) 5])).st.isAuthenticated &&
      (run cacheTU none 0
        ([] ++ [Event.fetchResolve 0 (some sampleUserU) 5])).st.user.isSome) = true :=
  ⟨by decide,
   ((c5_authenticated_signal cacheTU none 0 [] (Event.fetchResolve 0 (some sampleUserU) 5)).2.2
      (by decide)).2.1⟩

theorem c6_expired_profile_cache_witness :
    struthy "t" = true ∧
    (stepInit none ((0 : Int) + 86400001)
      (initSys ⟨some (StoredAuth.record (some "t") (some "u") none),
                some (StoredUser.record (some sampleUserU) 0)⟩)).st.user = none :=
  ⟨by decide, (c6_expired_profile_cache none "t" "u" none sampleUserU 0 (by decide) (by decide)).1⟩

theorem c8_fetch_failure_witness :
    (run cacheTU none 0 []).fetches.get? 0 =
      some { token := "t", userId := "u", aborted := false, viaEffect := true } ∧
    (resolveFetch 0 none 5 (run cacheTU none 0 [])).2 = false :=
  ⟨by decide,
   (c8_fetch_failure cacheTU none 0 [] 0 5
      { token := "t", userId := "u", aborted := false, viaEffect := true }
      (by decide) (by decide)).1⟩

theorem c10_userLoading_behavior_witness :
    (run cacheTU none 0 []).fetches.get? 0 =
      some { token := "t", userId := "u", aborted := false, viaEffect := true } ∧
    (step (run cacheTU none 0 []) (Event.fetchResolve 0 none 5)).st.userLoading
      = false :=
  ⟨by decide,
   (c10_userLoading_behavior cacheTU none 0 []).1 0 5
      { token := "t", userId := "u", aborted := false, viaEffect := true }
      (by decide) (by decide)⟩

/-- C2: in every reachable provider state — over any cache contents, bridge
data and event sequence — isAuthenticated equals the conjunction of token and
userId being present. -/
theorem c2_isAuthenticated_iff (c : Cache) (b : Option BridgeData) (n : Int)
    (evs : List Event) :
    (run c b n evs).st.isAuthenticated =
      ((run c b n evs).st.token.isSome &&
       (run c b n evs).st.userId.isSome) :=
  (inv_run c b n evs).1

/-- C1: after mount resolution followed by any sequence of bridge-ready
events, the snapshot token/userId equal the most recent valid bridge pair when
one was ever returned (and that pair has been re-persisted to the auth cache
entry); otherwise they equal the pair hydrated from the persisted cache and
the auth cache entry is untouched. -/
theorem c1_final_identity (c : Cache) (b : Option BridgeData) (n : Int)
    (bds : List (Option BridgeData)) :
    C1Inv c (bds.foldl latestBridge (bridgeValid b))
      (run c b n (bds.map Event.bridgeReady)) :=
  c1_fold c bds (bridgeValid b) (stepInit b n (initSys c)) (c1_init c b n)

end SwitchX
